import Mathlib

/-!
Verification development for the mindsieve RAG request pipeline.

The definitions below are a shallow embedding of the repository sources:

* `src/app/api/chat/route.ts` — the chat pipeline (enhancer call, embedding
  resolver, hybrid search post-processing, delimited answer stream);
* `src/server/chat/enhancer.ts` — preflight safety guard and query enhancer;
* `src/server/cards/generate.ts` — idempotent study-card generator;
* `src/app/api/cards/enqueue/route.ts` (both revisions present in the tree) —
  the card-enqueue endpoint;
* the card-listing endpoint `src/app/api/cards/route.ts` (both revisions
  present in the tree).

External collaborators (Vertex AI, Elasticsearch, Firestore, Cloud Tasks, the
WHATWG URL parser) are modelled at their interface boundary as explicit
environment values passed to the embedded functions; all in-repository logic
(string slicing, regex guards, hashing, caching, truncation, sorting,
pagination) is translated directly.

JavaScript strings are modelled as Lean strings (code points instead of UTF-16
units); JavaScript `Array.prototype.sort` with a comparator is modelled as a
stable insertion sort with respect to the comparator.
-/

namespace MindSieve

/-! ### JavaScript primitives -/

/-- Characters treated as whitespace by JavaScript `\s`, `trim` and
`parseInt` skipping (the ASCII ones plus NBSP; other exotic Unicode space
code points do not occur in the embedded data). -/
def isJsWs (c : Char) : Bool :=
  c = ' ' || c = '\t' || c = '\n' || c = '\r' || c = '\x0b' || c = '\x0c' || c = '\u00A0'

/-- JavaScript `String.prototype.trim`. -/
def jsTrim (s : String) : String :=
  ⟨((s.data.dropWhile isJsWs).reverse.dropWhile isJsWs).reverse⟩

/-- JavaScript `s.slice(0, n)` for a nonnegative `n` (the only string-slice
form used by the sources). -/
def strTake (s : String) (n : Nat) : String :=
  ⟨s.data.take n⟩

/-- JavaScript `xs.slice(0, e)` on arrays, including the negative-end form
(`e < 0` counts from the end) and the NaN form (`none`, which JavaScript
coerces to `0`). -/
def jsArraySlice0 {α : Type} (xs : List α) (e : Option Int) : List α :=
  match e with
  | none => []
  | some k =>
      if k < 0 then xs.take (xs.length - min xs.length k.natAbs)
      else xs.take (min k.toNat xs.length)

/-- Decimal digit test. -/
def isDigitCh (c : Char) : Bool :=
  '0' ≤ c && c ≤ '9'

/-- Value of a list of decimal digits. -/
def digitsVal (l : List Char) : Nat :=
  l.foldl (fun acc c => acc * 10 + (c.toNat - '0'.toNat)) 0

/-- Parse a maximal leading run of decimal digits; `none` when there is
no digit (the JavaScript NaN case). -/
def parseDigits (l : List Char) : Option Nat :=
  let ds := l.takeWhile isDigitCh
  if ds.isEmpty then none else some (digitsVal ds)

/-- JavaScript `parseInt(s, 10)`: skip leading whitespace, read an optional
sign and then leading decimal digits; `none` models NaN. -/
def parseIntJS (s : String) : Option Int :=
  match s.data.dropWhile isJsWs with
  | '-' :: rest => (parseDigits rest).map (fun n => -(n : Int))
  | '+' :: rest => (parseDigits rest).map (fun n => (n : Int))
  | rest => (parseDigits rest).map (fun n => (n : Int))

/-- JavaScript `Math.min(x, c)` where `x` may be NaN (`none`); NaN
propagates. -/
def jsMinNaN (x : Option Int) (c : Int) : Option Int :=
  x.map (fun k => min k c)

/-- JavaScript `Math.max(c, x)` where `x` may be NaN (`none`); NaN
propagates. -/
def jsMaxNaN (c : Int) (x : Option Int) : Option Int :=
  x.map (fun k => max c k)

/-- First truthy string among the arguments, else `""` (JavaScript
`a || b || ""` on optional strings, where the empty string is falsy). -/
def jsOrStr (a : Option String) (b : Option String) : String :=
  match a with
  | some s => if s = "" then (match b with | some t => t | none => "") else s
  | none => match b with | some t => t | none => ""

/-! ### A small regular-expression engine

The guard patterns in `enhancer.ts` and the topic filter in the chat route
use a fragment of JavaScript regular expressions: literals, alternation,
optional groups, `\s` classes with `*`/`+`/`?`, the word boundary `\b`,
the dot, and the `i` flag.  The engine below interprets exactly that
fragment.  `reRun` is a continuation-passing backtracking matcher; the fuel
argument strictly bounds the depth of the call tree, and `reFuel` supplies
more than enough of it, since every `star` iteration must consume input. -/

/-- Regular-expression abstract syntax. -/
inductive RE : Type
  | eps : RE
  | chr : (Char → Bool) → RE
  | cat : RE → RE → RE
  | alt : RE → RE → RE
  | star : RE → RE
  | bnd : RE

/-- Word character for `\b` (JavaScript `[A-Za-z0-9_]`). -/
def isWordChar (c : Char) : Bool :=
  ('a' ≤ c && c ≤ 'z') || ('A' ≤ c && c ≤ 'Z') || ('0' ≤ c && c ≤ '9') || c = '_'

/-- Whether a word boundary holds between the previously consumed character
and the rest of the input. -/
def boundaryAt (prev : Option Char) (s : List Char) : Bool :=
  let l := match prev with | some c => isWordChar c | none => false
  let r := match s with | c :: _ => isWordChar c | [] => false
  l != r

/-- Backtracking matcher in continuation-passing style.  `prev` is the
character just before the current position (for `\b`), `k` the success
continuation.  `star` only iterates after consuming at least one character,
so the provided fuel bounds the recursion. -/
def reRun (fuel : Nat) (r : RE) (prev : Option Char) (s : List Char)
    (k : Option Char → List Char → Bool) : Bool :=
  match fuel with
  | 0 => false
  | fuel + 1 =>
    match r with
    | .eps => k prev s
    | .chr p =>
        match s with
        | [] => false
        | c :: cs => p c && k (some c) cs
    | .cat a b => reRun fuel a prev s (fun p2 s2 => reRun fuel b p2 s2 k)
    | .alt a b => reRun fuel a prev s k || reRun fuel b prev s k
    | .star a =>
        k prev s ||
          reRun fuel a prev s (fun p2 s2 =>
            if s2.length < s.length then reRun fuel (.star a) p2 s2 k else false)
    | .bnd => boundaryAt prev s && k prev s

/-- Syntactic size of a regular expression, used to compute fuel. -/
def reSize : RE → Nat
  | .eps => 1
  | .chr _ => 1
  | .cat a b => reSize a + reSize b + 1
  | .alt a b => reSize a + reSize b + 1
  | .star a => reSize a + 1
  | .bnd => 1

/-- Fuel that strictly dominates the depth of any `reRun` call tree on the
given input. -/
def reFuel (r : RE) (s : List Char) : Nat :=
  (s.length + 2) * (reSize r + 2) + 2

/-- Try to match `r` at every start position (JavaScript unanchored
`RegExp.prototype.test`). -/
def reSearchAux (r : RE) (fuel : Nat) : Option Char → List Char → Bool
  | prev, [] => reRun fuel r prev [] (fun _ _ => true)
  | prev, c :: rest =>
      reRun fuel r prev (c :: rest) (fun _ _ => true) ||
        reSearchAux r fuel (some c) rest

/-- JavaScript `re.test(s)` for the embedded fragment. -/
def reTest (r : RE) (s : String) : Bool :=
  reSearchAux r (reFuel r s.data) none s.data

/-- Case-insensitive single character (the `i` flag lower-cases both
sides). -/
def ci (c : Char) : RE :=
  .chr (fun x => x.toLower = c.toLower)

/-- Case-insensitive literal string. -/
def lit (s : String) : RE :=
  s.data.foldr (fun c r => RE.cat (ci c) r) RE.eps

/-- Alternation of a list of alternatives (empty list never matches). -/
def altsOf (l : List RE) : RE :=
  match l with
  | [] => .chr (fun _ => false)
  | [r] => r
  | r :: rest => .alt r (altsOf rest)

/-- The `\s` character class. -/
def wsC : RE := .chr isJsWs

/-- The `\s*` fragment. -/
def wsStar : RE := .star wsC

/-- The `\s+` fragment. -/
def wsPlus : RE := .cat wsC wsStar

/-- An optional group `(...)?`. -/
def opt (r : RE) : RE := .alt r .eps

/-- The `[-\s]?` fragment. -/
def dashWsOpt : RE := opt (.chr (fun c => c = '-' || isJsWs c))

/-- The `.` metacharacter (anything but a line terminator). -/
def dotC : RE :=
  .chr (fun c => !(c = '\n' || c = '\r' || c = '\u2028' || c = '\u2029'))

/-- The `\w` character class. -/
def wC : RE := .chr isWordChar

/-- The `\w+` fragment. -/
def wPlus : RE := .cat wC (.star wC)

/-- Sequence a list of fragments. -/
def seqOf (l : List RE) : RE :=
  l.foldr RE.cat RE.eps


/-! ### Safety preflight guard (`src/server/chat/enhancer.ts`)

Each element of `UNSAFE_PATTERNS` is the abstract syntax of the
corresponding JavaScript regex literal, paired with its source text (used in
the rejection reason). -/

/-- Pattern 1: weapon-building phrases. -/
def unsafeRe1 : RE :=
  seqOf [.bnd,
    altsOf [lit "build", lit "make", lit "buy", lit "sell"],
    wsPlus,
    opt (altsOf [lit "a", lit "an"]),
    wsStar,
    altsOf [lit "bomb", lit "explosive", lit "grenade", lit "gun", lit "firearm",
      seqOf [lit "pipe", wsStar, lit "bomb"]],
    .bnd]

/-- Pattern 2: exploit and malware terms. -/
def unsafeRe2 : RE :=
  seqOf [.bnd,
    altsOf [lit "exploit",
      seqOf [lit "zero", dashWsOpt, lit "day"],
      lit "rce",
      seqOf [lit "priv", dashWsOpt, lit "esc"],
      lit "backdoor", lit "keylogger", lit "ransomware", lit "malware"],
    .bnd]

/-- Pattern 3: attack-technique terms. -/
def unsafeRe3 : RE :=
  seqOf [.bnd,
    altsOf [lit "ddos",
      seqOf [lit "sql", wsStar, lit "injection"],
      lit "xss", lit "csrf",
      seqOf [lit "credential", wsStar, lit "stuffing"],
      lit "bruteforce"],
    .bnd]

/-- Pattern 4: access-bypass terms. -/
def unsafeRe4 : RE :=
  seqOf [.bnd,
    altsOf [lit "paywall", lit "bypass", lit "crack", lit "torrent", lit "warez",
      seqOf [lit "license", wsStar, lit "key"],
      seqOf [lit "activation", wsStar, lit "key"]],
    .bnd]

/-- Pattern 5: self-harm terms. -/
def unsafeRe5 : RE :=
  seqOf [.bnd,
    altsOf [seqOf [lit "self", dashWsOpt, lit "harm"],
      lit "suicide",
      seqOf [lit "kill", wsStar, lit "myself"],
      seqOf [lit "how", wsStar, lit "to", wsStar, lit "die"]],
    .bnd]

/-- Pattern 6: sensitive-PII terms. -/
def unsafeRe6 : RE :=
  seqOf [.bnd,
    altsOf [lit "ssn",
      seqOf [lit "social", wsStar, lit "security", wsStar, lit "number"],
      seqOf [lit "credit", wsStar, lit "card"],
      lit "cvv", lit "dob",
      seqOf [lit "home", wsStar, lit "address"]],
    .bnd]

/-- Pattern 7: minor-exploitation phrases. -/
def unsafeRe7 : RE :=
  seqOf [.bnd,
    altsOf [lit "child", lit "minor"],
    .star dotC,
    altsOf [lit "sexual", lit "porn", lit "explicit"]]

/-- The `UNSAFE_PATTERNS` array with each regex source text. -/
def UNSAFE_PATTERNS : List (RE × String) :=
  [(unsafeRe1, "\\b(build|make|buy|sell)\\s+(a|an)?\\s*(bomb|explosive|grenade|gun|firearm|pipe\\s*bomb)\\b"),
   (unsafeRe2, "\\b(exploit|zero[-\\s]?day|rce|priv[-\\s]?esc|backdoor|keylogger|ransomware|malware)\\b"),
   (unsafeRe3, "\\b(ddos|sql\\s*injection|xss|csrf|credential\\s*stuffing|bruteforce)\\b"),
   (unsafeRe4, "\\b(paywall|bypass|crack|torrent|warez|license\\s*key|activation\\s*key)\\b"),
   (unsafeRe5, "\\b(self[-\\s]?harm|suicide|kill\\s*myself|how\\s*to\\s*die)\\b"),
   (unsafeRe6, "\\b(ssn|social\\s*security\\s*number|credit\\s*card|cvv|dob|home\\s*address)\\b"),
   (unsafeRe7, "\\b(child|minor).*(sexual|porn|explicit)")]

/-- First matching pattern in a pattern list, yielding its source text. -/
def firstUnsafeMatch (q : String) : List (RE × String) → Option String
  | [] => none
  | (r, src) :: rest =>
      if reTest r q then some src else firstUnsafeMatch q rest

/-- Whether some unsafe pattern matches the query. -/
def anyUnsafe (q : String) : Bool :=
  (firstUnsafeMatch q UNSAFE_PATTERNS).isSome

/-- `preflightUnsafe` from `enhancer.ts`: empty or whitespace-only queries
and queries matching an unsafe pattern yield a rejection reason. -/
def preflightUnsafe (q : String) : Option String :=
  if q = "" || jsTrim q = "" then some "Empty or meaningless query"
  else (firstUnsafeMatch q UNSAFE_PATTERNS).map (fun src => "Disallowed content: " ++ src)

/-! ### Query enhancer, current revision (`src/server/chat/enhancer.ts`)

The Vertex call and `JSON.parse` of its text are collapsed into an
`EnhLLM` value describing the outcome at the interface boundary: the call
threw, or it returned text whose parse failed, or it returned a parsed JSON
object (whose relevant fields are given with their JavaScript types). -/

/-- Parsed enhancer model response: the `blocked` flag, the optional
`reason`, `hypothetical_answer` (present only when it is a string) and
`keywords` (present only when it is an array). -/
structure EnhParsed where
  blocked : Bool
  reason : Option String
  hypo : Option String
  keywords : Option (List String)
deriving DecidableEq, Repr

/-- Outcome of the enhancer model call: it threw (or timed out), or it
produced unparseable text, or it produced a parsed JSON object. -/
inductive EnhLLM : Type
  | threw : EnhLLM
  | nonJson : EnhLLM
  | parsed : EnhParsed → EnhLLM
deriving DecidableEq, Repr

/-- Result type of `enhanceQuery` (the `EnhanceResult` union). -/
inductive EnhanceResult : Type
  | blocked : String → EnhanceResult
  | ok : String → List String → EnhanceResult
deriving DecidableEq, Repr

/-- JavaScript `String(parsed?.reason || "blocked")`. -/
def reasonOr (r : Option String) : String :=
  jsOrStr r (some "blocked")

/-- `enhanceQuery` from `enhancer.ts`.  Returns the result together with
the number of model calls performed. -/
def enhanceQuery (q : String) (llm : EnhLLM) : EnhanceResult × Nat :=
  match preflightUnsafe q with
  | some reason => (.blocked reason, 0)
  | none =>
      match llm with
      | .threw => (.ok q [], 1)
      | .nonJson => (.ok q [], 1)
      | .parsed p =>
          if p.blocked then (.blocked (reasonOr p.reason), 1)
          else
            let hypo := match p.hypo with | some h => jsTrim h | none => ""
            let kws := match p.keywords with | some l => l | none => []
            if hypo = "" then (.ok q [], 1) else (.ok hypo kws, 1)

/-! ### Inline enhancer, earlier chat-route revision (`src/unnamed/part_006`)

This revision of `src/app/api/chat/route.ts` carries its own enhancer with a
cache, a timeout and the heuristic skip `shouldSkipEnhancer`. -/

/-- Count of non-overlapping matches of `/[.!?]\s/g` (a sentence terminator
followed by whitespace; a match consumes two characters). -/
def sentenceBreaks : List Char → Nat
  | [] => 0
  | [_] => 0
  | c :: d :: rest =>
      if (c = '.' || c = '!' || c = '?') && isJsWs d then
        sentenceBreaks rest + 1
      else sentenceBreaks (d :: rest)

/-- The code-like test `/```|function\s|\bclass\b|\{|\}|\<\w+\>/`. -/
def codeishRe : RE :=
  altsOf [lit "```",
    seqOf [lit "function", wsC],
    seqOf [.bnd, lit "class", .bnd],
    .chr (fun c => c = '\x7b'),
    .chr (fun c => c = '\x7d'),
    seqOf [.chr (fun c => c = '<'), wPlus, .chr (fun c => c = '>')]]

/-- `shouldSkipEnhancer` from the part_006 revision: long, multi-sentence,
code-like or comma-dense queries skip model enhancement. -/
def shouldSkipEnhancer (q : String) : Bool :=
  if q = "" then true
  else
    let len := q.length
    let commaCount := (q.data.filter (fun c => c = ',')).length
    let hasCodeish := reTest codeishRe q
    let manySentences := 3 ≤ sentenceBreaks q.data
    decide (320 < len) || manySentences || hasCodeish || decide (6 < commaCount)

/-- Collapse every whitespace run to a single space
(JavaScript `replace(/\s+/g, " ")`). -/
def collapseWs : List Char → List Char
  | [] => []
  | c :: rest =>
      if isJsWs c then ' ' :: collapseWs (rest.dropWhile isJsWs)
      else c :: collapseWs rest
termination_by l => l.length
decreasing_by
  · simp only [List.length_cons]
    exact Nat.lt_succ_of_le (List.Sublist.length_le (List.dropWhile_sublist _))
  · simp only [List.length_cons]
    exact Nat.lt_succ_self _

/-- `normKey` from the part_006 revision: lower-case, collapse whitespace,
trim. -/
def normKey (s : String) : String :=
  jsTrim ⟨(collapseWs s.data).map Char.toLower⟩

/-- An enhancer cache entry: value and expiry timestamp. -/
structure CacheEntry where
  value : String
  expiresAt : Int
deriving DecidableEq, Repr

/-- The enhancer cache, modelled as an association list keyed by the
normalized query. -/
def EnhCache : Type := List (String × CacheEntry)

/-- Association-list lookup (`Map.get`). -/
def assocGet {α : Type} (k : String) : List (String × α) → Option α
  | [] => none
  | (k2, v) :: rest => if k2 = k then some v else assocGet k rest

/-- Association-list update (`Map.set`). -/
def assocSet {α : Type} (k : String) (v : α) : List (String × α) → List (String × α)
  | [] => [(k, v)]
  | (k2, w) :: rest => if k2 = k then (k, v) :: rest else (k2, w) :: assocSet k v rest

/-- Outcome of the inline enhancer's model call, abstracted at the
interface boundary after `JSON.parse`: the call threw or timed out, or it
returned empty text, or unparseable text, or a parsed JSON object whose
`hypothetical_answer` is given when it is a string. -/
inductive EnhLLM2 : Type
  | threw : EnhLLM2
  | empty : EnhLLM2
  | nonJson : EnhLLM2
  | parsed : Option String → EnhLLM2
deriving DecidableEq, Repr

/-- `ENHANCER_TTL_MS` from the part_006 revision. -/
def ENHANCER_TTL_MS : Int := 2 * 60 * 1000

/-- `ENHANCER_MAX_OUTPUT` from the part_006 revision. -/
def ENHANCER_MAX_OUTPUT : Nat := 1000

/-- `strengthenQuery` from the part_006 revision.  Returns the enhanced
query, the updated cache and the number of model calls performed. -/
def strengthenQuery (q : String) (cache : EnhCache) (now : Int)
    (llm : EnhLLM2) : String × EnhCache × Nat :=
  let base := jsTrim q
  if base = "" then (base, cache, 0)
  else if shouldSkipEnhancer base then (base, cache, 0)
  else
    let key := normKey base
    match assocGet key cache with
    | some hit =>
        if now < hit.expiresAt then (hit.value, cache, 0)
        else strengthenCall base key cache now llm
    | none => strengthenCall base key cache now llm
where
  strengthenCall (base key : String) (cache : EnhCache) (now : Int)
      (llm : EnhLLM2) : String × EnhCache × Nat :=
    match llm with
    | .threw => (base, cache, 1)
    | .empty => (base, cache, 1)
    | .nonJson => (base, cache, 1)
    | .parsed hypoField =>
        let hypo0 := match hypoField with | some h => h | none => base
        let hypo1 := jsTrim ⟨collapseWs hypo0.data⟩
        if hypo1 = "" then (base, cache, 1)
        else
          let hypo2 := if ENHANCER_MAX_OUTPUT < hypo1.length
            then strTake hypo1 ENHANCER_MAX_OUTPUT else hypo1
          (hypo2, assocSet key ⟨hypo2, now + ENHANCER_TTL_MS⟩ cache, 1)

/-! ### SHA-256 (`crypto.createHash("sha256")` in `generate.ts`)

A direct implementation of FIPS 180-4 over the UTF-8 bytes of the input,
with 32-bit words represented as natural numbers reduced modulo `2 ^ 32`. -/

/-- `2 ^ 32`, the word modulus. -/
def M32 : Nat := 4294967296

/-- Bitwise complement within 32 bits. -/
def not32 (x : Nat) : Nat := x ^^^ (M32 - 1)

/-- Right rotation of a 32-bit word. -/
def rotr32 (n x : Nat) : Nat :=
  ((x >>> n) ||| (x <<< (32 - n))) % M32

/-- The SHA-256 `Ch` function. -/
def shaCh (e f g : Nat) : Nat := (e &&& f) ^^^ (not32 e &&& g)

/-- The SHA-256 `Maj` function. -/
def shaMaj (a b c : Nat) : Nat := (a &&& b) ^^^ (a &&& c) ^^^ (b &&& c)

/-- The SHA-256 big sigma-0 function. -/
def bsig0 (x : Nat) : Nat := rotr32 2 x ^^^ rotr32 13 x ^^^ rotr32 22 x

/-- The SHA-256 big sigma-1 function. -/
def bsig1 (x : Nat) : Nat := rotr32 6 x ^^^ rotr32 11 x ^^^ rotr32 25 x

/-- The SHA-256 small sigma-0 function. -/
def ssig0 (x : Nat) : Nat := rotr32 7 x ^^^ rotr32 18 x ^^^ (x >>> 3)

/-- The SHA-256 small sigma-1 function. -/
def ssig1 (x : Nat) : Nat := rotr32 17 x ^^^ rotr32 19 x ^^^ (x >>> 10)

/-- The 64 SHA-256 round constants. -/
def shaK : Array Nat :=
  #[1116352408, 1899447441, 3049323471, 3921009573, 961987163,
    1508970993, 2453635748, 2870763221, 3624381080, 310598401,
    607225278, 1426881987, 1925078388, 2162078206, 2614888103,
    3248222580, 3835390401, 4022224774, 264347078, 604807628,
    770255983, 1249150122, 1555081692, 1996064986, 2554220882,
    2821834349, 2952996808, 3210313671, 3336571891, 3584528711,
    113926993, 338241895, 666307205, 773529912, 1294757372,
    1396182291, 1695183700, 1986661051, 2177026350, 2456956037,
    2730485921, 2820302411, 3259730800, 3345764771, 3516065817,
    3600352804, 4094571909, 275423344, 430227734, 506948616,
    659060556, 883997877, 958139571, 1322822218, 1537002063,
    1747873779, 1955562222, 2024104815, 2227730452, 2361852424,
    2428436474, 2756734187, 3204031479, 3329325298]

/-- The SHA-256 initial hash state. -/
def shaH0 : Array Nat :=
  #[1779033703, 3144134277, 1013904242, 2773480762,
    1359893119, 2600822924, 528734635, 1541459225]

/-- Big-endian bytes of a number, fixed width. -/
def beBytes (width : Nat) (n : Nat) : List Nat :=
  (List.range width).map (fun i => (n >>> (8 * (width - 1 - i))) &&& 255)

/-- SHA-256 message padding: append `0x80`, zeros to 56 mod 64, then the
bit length as a 64-bit big-endian integer. -/
def shaPad (msg : List Nat) : List Nat :=
  let L := msg.length
  let z := (64 + 56 - ((L + 1) % 64)) % 64
  msg ++ [0x80] ++ List.replicate z 0 ++ beBytes 8 (8 * L)

/-- Split a byte list into 64-byte blocks. -/
def chunks64 : List Nat → List (List Nat)
  | [] => []
  | b :: rest => (b :: rest).take 64 :: chunks64 ((b :: rest).drop 64)
termination_by l => l.length
decreasing_by
  simp only [List.length_drop, List.length_cons]
  omega

/-- The 16 big-endian words of one 64-byte block. -/
def blockWords (block : List Nat) : Array Nat :=
  ((List.range 16).map (fun i =>
    (block.getD (4 * i) 0) <<< 24 ||| (block.getD (4 * i + 1) 0) <<< 16 |||
    (block.getD (4 * i + 2) 0) <<< 8 ||| block.getD (4 * i + 3) 0)).toArray

/-- One message-schedule extension step. -/
def stepW (a : Array Nat) : Array Nat :=
  let n := a.size
  a.push ((ssig1 (a.getD (n - 2) 0) + a.getD (n - 7) 0 +
    ssig0 (a.getD (n - 15) 0) + a.getD (n - 16) 0) % M32)

/-- The 64-entry message schedule of a block. -/
def schedule (block : List Nat) : Array Nat :=
  Nat.fold (fun _ acc => stepW acc) 48 (blockWords block)

/-- One SHA-256 compression round. -/
def shaRound (w : Array Nat) (t : Nat) (st : Array Nat) : Array Nat :=
  let a := st.getD 0 0
  let b := st.getD 1 0
  let c := st.getD 2 0
  let d := st.getD 3 0
  let e := st.getD 4 0
  let f := st.getD 5 0
  let g := st.getD 6 0
  let h := st.getD 7 0
  let T1 := (h + bsig1 e + shaCh e f g + shaK.getD t 0 + w.getD t 0) % M32
  let T2 := (bsig0 a + shaMaj a b c) % M32
  #[(T1 + T2) % M32, a, b, c, (d + T1) % M32, e, f, g]

/-- Compress one block into the running hash state. -/
def shaCompress (st : Array Nat) (block : List Nat) : Array Nat :=
  let w := schedule block
  let fin := Nat.fold (fun t acc => shaRound w t acc) 64 st
  (List.range 8).foldl (fun acc i => acc.push ((st.getD i 0 + fin.getD i 0) % M32)) #[]

/-- The UTF-8 bytes of a string. -/
def utf8Bytes (s : String) : List Nat :=
  s.toUTF8.toList.map (fun b => b.toNat)

/-- A hexadecimal digit character. -/
def hexDigit (n : Nat) : Char :=
  if n < 10 then Char.ofNat ('0'.toNat + n) else Char.ofNat ('a'.toNat + (n - 10))

/-- Lower-case hexadecimal rendering of a 32-bit word. -/
def hex32 (n : Nat) : List Char :=
  (List.range 8).map (fun i => hexDigit ((n >>> (4 * (7 - i))) &&& 15))

/-- `crypto.createHash("sha256").update(s).digest("hex")`. -/
def sha256hex (s : String) : String :=
  let final := (chunks64 (shaPad (utf8Bytes s))).foldl shaCompress shaH0
  ⟨(final.toList.map hex32).flatten⟩

/-! ### Card generator (`src/server/cards/generate.ts`)

Firestore is modelled as association lists for the `study_cards` and
`turns` collections.  The Vertex distillation call and the `JSON.parse` of
its text are collapsed into a `CardPayload` supplied by the environment
(every failure path of the call funnels into the empty payload `{}`), and
the WHATWG URL parser used by `normalizeLinks` is supplied as a validity
predicate plus a normalizing function. -/

/-- A retrieval source item as sent to the card generator
(`{ id, title, arxiv_id? }`). -/
structure SourceItem where
  id : Int
  title : String
  arxivId : Option String
deriving DecidableEq, Repr

/-- `GenerateParams` from `generate.ts`. -/
structure GenerateParams where
  sessionId : String
  turnId : String
  answer : String
  sources : List SourceItem
  topic : Option String
  fromQuery : Option String
  ownerUid : Option String
deriving DecidableEq, Repr

/-- Insert into an ascending list of ids. -/
def insertAsc (x : Int) : List Int → List Int
  | [] => [x]
  | y :: ys => if x ≤ y then x :: y :: ys else y :: insertAsc x ys

/-- JavaScript `ids.sort((a, b) => a - b)` (numeric ascending). -/
def sortIdsAsc (l : List Int) : List Int :=
  l.foldr insertAsc []

/-- `JSON.stringify` of an integer array. -/
def jsonIntList (l : List Int) : String :=
  "[" ++ String.intercalate "," (l.map toString) ++ "]"

/-- The hash input string
`sessionId + "|" + turnId + "|" + answer + "|" + JSON.stringify(ids)`. -/
def cardIdInput (p : GenerateParams) : String :=
  p.sessionId ++ "|" ++ p.turnId ++ "|" ++ p.answer ++ "|" ++
    jsonIntList (sortIdsAsc (p.sources.map SourceItem.id))

/-- The deterministic card id: first 28 hex characters of the SHA-256 of
the hash input. -/
def cardIdOf (p : GenerateParams) : String :=
  strTake (sha256hex (cardIdInput p)) 28

/-- A parsed JSON value as far as the sanitizers inspect it: a string or
anything else. -/
inductive JVal : Type
  | jstr : String → JVal
  | jother : JVal
deriving DecidableEq, Repr

/-- A `quiz` array entry as far as the sanitizer inspects it. -/
inductive JQuiz : Type
  | pair : Option String → Option String → JQuiz
  | notObj : JQuiz
deriving DecidableEq, Repr

/-- The distillation payload after `JSON.parse` (each field `none` when
absent or of the wrong JavaScript type, as the sanitizers test). -/
structure CardPayload where
  topic : Option String
  summary : Option String
  bullets : Option (List JVal)
  keyTerms : Option (List JVal)
  quiz : Option (List JQuiz)
  tags : Option (List JVal)
  links : Option (List JVal)
deriving DecidableEq, Repr

/-- The empty payload `{}` (used on every model-call failure path). -/
def CardPayload.empty : CardPayload :=
  ⟨none, none, none, none, none, none, none⟩

/-- `normalizeArr` from `generate.ts`: keep trimmed nonempty strings, cap
the count. -/
def normalizeArr (v : Option (List JVal)) (max : Nat) : List String :=
  match v with
  | none => []
  | some l =>
      (l.filterMap (fun x =>
        match x with
        | .jstr s => if (jsTrim s).length > 0 then some (jsTrim s) else none
        | .jother => none)).take max

/-- `normalizeLinks` from `generate.ts`: keep strings that parse as URLs
(validity and normalization supplied by the URL-parser environment), cap at
4. -/
def normalizeLinks (isURL : String → Bool) (urlNorm : String → String)
    (v : Option (List JVal)) : List String :=
  match v with
  | none => []
  | some l =>
      (l.filterMap (fun x =>
        match x with
        | .jstr s => if isURL (jsTrim s) then some (urlNorm (jsTrim s)) else none
        | .jother => none)).take 4

/-- Quiz sanitization: keep entries with string `q` and `a`, cap at 3,
trim both. -/
def normalizeQuiz (v : Option (List JQuiz)) : List (String × String) :=
  match v with
  | none => []
  | some l =>
      ((l.filterMap (fun e =>
        match e with
        | .pair (some q) (some a) => some (q, a)
        | _ => none)).take 3).map (fun qa => (jsTrim qa.1, jsTrim qa.2))

/-- A stored study card (the object written to `study_cards`). -/
structure StudyCard where
  id : String
  sessionId : String
  turnId : String
  ownerUid : Option String
  topic : String
  summary : String
  bullets : List String
  keyTerms : List String
  quiz : List (String × String)
  links : List String
  sources : List SourceItem
  tags : List String
  fromQuery : String
  createdAt : Int
deriving DecidableEq, Repr

/-- A `turns` document as touched by the card generator. -/
structure TurnDoc where
  id : String
  sessionId : String
  ownerUid : Option String
  preview : String
  cardCount : Int
  createdAt : Int
  updatedAt : Int
deriving DecidableEq, Repr

/-- The Firestore collections touched by the card generator. -/
structure Store where
  cards : List (String × StudyCard)
  turns : List (String × TurnDoc)
deriving DecidableEq, Repr

/-- Environment for one `generateAndStoreCard` run: the distillation
payload the model call produces (empty on any failure), whether the
tool-schema retry fired, the URL-parser, and the clock. -/
structure GenEnv where
  payload : CardPayload
  schemaRetried : Bool
  isURL : String → Bool
  urlNorm : String → String
  now : Int
  serverNow : Int

/-- Result record of `generateAndStoreCard` (`{ id, cached, card }`). -/
structure GenResult where
  id : String
  cached : Bool
  card : StudyCard
deriving DecidableEq, Repr

/-- JavaScript `card.summary?.slice(0, 140) || card.bullets?.[0] || ""`. -/
def previewOf (summary : String) (bullets : List String) : String :=
  jsOrStr (some (strTake summary 140)) (jsOrStr bullets.head? (some "") |> some)

/-- The merge write to the owning turn: `cardCount` is incremented (or
created at 1) and both timestamps are set to the server time. -/
def touchTurn (env : GenEnv) (p : GenerateParams) (preview : String)
    (turns : List (String × TurnDoc)) : List (String × TurnDoc) :=
  let prior := assocGet p.turnId turns
  let count := match prior with | some t => t.cardCount + 1 | none => 1
  assocSet p.turnId
    ⟨p.turnId, p.sessionId, p.ownerUid, preview, count, env.serverNow, env.serverNow⟩ turns

/-- `generateAndStoreCard` from `generate.ts`.  Returns the result record,
the updated store, and the number of model calls performed. -/
def generateAndStoreCard (env : GenEnv) (st : Store) (p : GenerateParams) :
    GenResult × Store × Nat :=
  let cardId := cardIdOf p
  match assocGet cardId st.cards with
  | some existing => (⟨cardId, true, existing⟩, st, 0)
  | none =>
      let calls := if env.schemaRetried then 2 else 1
      let userTopic := jsOrStr p.topic (jsOrStr p.fromQuery (some "Study Topic") |> some)
      let payload := env.payload
      let finalTopic := strTake (jsOrStr payload.topic (some userTopic)) 120
      let summary := strTake (jsOrStr payload.summary (some "")) 1200
      let bullets := normalizeArr payload.bullets 5
      let keyTerms := normalizeArr payload.keyTerms 8
      let quiz := normalizeQuiz payload.quiz
      let links := normalizeLinks env.isURL env.urlNorm payload.links
      let tags := normalizeArr payload.tags 8
      let card : StudyCard :=
        ⟨cardId, p.sessionId, p.turnId, p.ownerUid, finalTopic, summary, bullets,
          keyTerms, quiz, links,
          p.sources.map (fun s => ⟨s.id, s.title, s.arxivId⟩),
          tags, jsOrStr p.fromQuery (some ""), env.now⟩
      let st2 : Store :=
        ⟨assocSet cardId card st.cards,
          touchTurn env p (previewOf card.summary card.bullets) st.turns⟩
      (⟨cardId, false, card⟩, st2, calls)

/-! ### Card-enqueue endpoint (`src/app/api/cards/enqueue/route.ts`)

Two revisions exist in the tree.  The revision at
`src/app/api/cards/enqueue/route.ts` enqueues through the Cloud Tasks SDK
and returns a 500 error when the enqueue fails; the revision kept as
`src/unnamed/part_005` enqueues through REST and falls back to the inline
sync path when the enqueue fails.  Cloud Tasks is modelled as an
environment value giving the outcome of one enqueue attempt. -/

/-- The enqueue request payload (`EnqueuePayload`); `answer = ""` and a
missing `sources` array model the falsy cases the validation rejects. -/
structure EnqueuePayload where
  sessionId : String
  turnId : String
  answer : String
  sources : Option (List SourceItem)
  topic : Option String
  fromQuery : Option String
  ownerUid : Option String
deriving DecidableEq, Repr

/-- View an enqueue payload as card-generator parameters. -/
def EnqueuePayload.toParams (p : EnqueuePayload) : GenerateParams :=
  ⟨p.sessionId, p.turnId, p.answer,
    (match p.sources with | some l => l | none => []),
    p.topic, p.fromQuery, p.ownerUid⟩

/-- Body of an enqueue response. -/
inductive EnqBody : Type
  | err : String → EnqBody
  | asyncTask : String → EnqBody
  | syncResult : String → Bool → StudyCard → EnqBody
deriving DecidableEq, Repr

/-- An enqueue HTTP response: status plus body. -/
structure EnqResp where
  status : Nat
  body : EnqBody
deriving DecidableEq, Repr

/-- Environment for one enqueue request: runtime flags, the Cloud Tasks
outcome (task name on success, error text on failure), whether the inline
generator throws, and the generator environment. -/
structure EnqueueEnv where
  isCloudRun : Bool
  forceSync : Bool
  enqueueOutcome : Except String String
  genThrows : Bool
  genEnv : GenEnv

/-- The revision at `src/app/api/cards/enqueue/route.ts` (Cloud Tasks SDK;
no sync fallback on enqueue failure).  Returns the response, the updated
store and the number of card-generator runs. -/
def enqueueRoutePOST (env : EnqueueEnv) (st : Store) (p : EnqueuePayload) :
    EnqResp × Store × Nat :=
  let isAsync := env.isCloudRun && !env.forceSync
  if p.sessionId = "" then (⟨400, .err "sessionId required"⟩, st, 0)
  else if p.turnId = "" then (⟨400, .err "turnId required"⟩, st, 0)
  else if p.answer = "" || p.sources.isNone then
    (⟨400, .err "answer & sources required"⟩, st, 0)
  else if !isAsync then
    if env.genThrows then (⟨500, .err "sync-failed"⟩, st, 1)
    else
      let r := generateAndStoreCard env.genEnv st p.toParams
      (⟨200, .syncResult r.1.id r.1.cached r.1.card⟩, r.2.1, 1)
  else
    match env.enqueueOutcome with
    | .ok taskName => (⟨200, .asyncTask taskName⟩, st, 0)
    | .error _ => (⟨500, .err "enqueue-failed"⟩, st, 0)

/-- The revision kept as `src/unnamed/part_005` (REST enqueue; on enqueue
failure it falls through to the sync path). -/
def enqueueRestPOST (env : EnqueueEnv) (st : Store) (p : EnqueuePayload) :
    EnqResp × Store × Nat :=
  let doAsync := env.isCloudRun && !env.forceSync
  if p.sessionId = "" then (⟨400, .err "sessionId required"⟩, st, 0)
  else if p.turnId = "" then (⟨400, .err "turnId required"⟩, st, 0)
  else if p.answer = "" || p.sources.isNone then
    (⟨400, .err "answer & sources required"⟩, st, 0)
  else
    match (if doAsync then some env.enqueueOutcome else none) with
    | some (.ok taskName) => (⟨200, .asyncTask taskName⟩, st, 0)
    | _ =>
        if env.genThrows then (⟨500, .err "sync-failed"⟩, st, 1)
        else
          let r := generateAndStoreCard env.genEnv st p.toParams
          (⟨200, .syncResult r.1.id r.1.cached r.1.card⟩, r.2.1, 1)

/-! ### Streaming synthesizer (`src/app/api/chat/route.ts`, step 7/8)

The answer stream multiplexes three channels with textual delimiters.  A
`Seg` is one `controller.enqueue` of the answer phase; the preamble
segments are prepended by `chatStreamBytes`.  The chunk list is the
sequence of part texts delivered by the model stream, in order (items
without parts and non-string or empty texts are skipped by the loop, which
for empty texts is reflected in `emitLoop`). -/

/-- The truncation marker appended when the character cap is hit. -/
def TRUNC_MARK : List Char := "\n\n[…truncated]".data

/-- The in-band marker emitted when the model stream errors mid-way. -/
def ERROR_MARK : List Char := "\n\n[Stream ended due to an internal error]".data

/-- Delimiter closing the serialized source list. -/
def SOURCES_DELIM : List Char := "|||SOURCES|||".data

/-- Delimiter closing the serialized metadata. -/
def META_DELIM : List Char := "|||META|||".data

/-- The fixed zero-hit answer. -/
def NO_SOURCES_ANSWER : List Char :=
  "I couldn\u0027t find any specific documents in my arXiv knowledge base for your query. Please try rephrasing.".data

/-- One enqueued segment of the answer phase. -/
inductive Seg : Type
  | text : List Char → Seg
  | trunc : Seg
  | errmark : Seg
deriving DecidableEq, Repr

/-- The chunk loop of the stream: per chunk, compute the remaining budget,
close with the truncation marker when the budget is exhausted, emit the
fitting prefix, and close with the marker when the chunk was cut. -/
def emitLoop (cap : Nat) (emitted : Nat) : List (List Char) → List Seg
  | [] => []
  | c :: rest =>
      if c.isEmpty then emitLoop cap emitted rest
      else if cap ≤ emitted then [.trunc]
      else
        let slice := c.take (cap - emitted)
        if slice.length < c.length then [.text slice, .trunc]
        else .text slice :: emitLoop cap (emitted + slice.length) rest

/-- Whether a segment list contains the truncation marker. -/
def hasTrunc (segs : List Seg) : Bool :=
  segs.contains .trunc

/-- Answer-phase segments of one stream: the chunk loop output, followed by
the in-band error marker when the model stream errored before the loop
closed the stream. -/
def streamSegs (cap : Nat) (chunks : List (List Char)) (err : Bool) : List Seg :=
  let segs := emitLoop cap 0 chunks
  if hasTrunc segs then segs else segs ++ (if err then [.errmark] else [])

/-- Rendered bytes of one segment. -/
def renderSeg : Seg → List Char
  | .text s => s
  | .trunc => TRUNC_MARK
  | .errmark => ERROR_MARK

/-- Rendered bytes of the answer phase. -/
def renderSegs (segs : List Seg) : List Char :=
  (segs.map renderSeg).flatten

/-- The answer text inside a segment list (markers excluded). -/
def answerText (segs : List Seg) : List Char :=
  (segs.filterMap (fun s => match s with | .text t => some t | _ => none)).flatten

/-- Total answer-text length of a segment list. -/
def answerLen (segs : List Seg) : Nat :=
  (answerText segs).length

/-- Number of truncation markers in a segment list. -/
def truncCount (segs : List Seg) : Nat :=
  (segs.filter (fun s => s = .trunc)).length

/-- The full byte sequence of a streamed chat response: serialized sources,
delimiter, serialized metadata, delimiter, then the answer phase. -/
def chatStreamBytes (sJson mJson : List Char) (cap : Nat)
    (chunks : List (List Char)) (err : Bool) : List Char :=
  sJson ++ SOURCES_DELIM ++ mJson ++ META_DELIM ++ renderSegs (streamSegs cap chunks err)

/-- The full byte sequence of the zero-hit response:
`JSON.stringify([])`, delimiter, metadata, delimiter, the fixed answer. -/
def noSourcesBody (mJson : List Char) : List Char :=
  "[]".data ++ SOURCES_DELIM ++ mJson ++ META_DELIM ++ NO_SOURCES_ANSWER

/-! ### Embedding resolver (`embedViaRestRobust`)

The two endpoint shapes tried at each region are `:embedText` (primary)
and `:predict` (secondary).  The HTTP world is an environment mapping a
region and shape to the attempt outcome; a response body records which of
the known vector fields are present (a present-but-empty array is kept
distinct from an absent field, since `||` stops at an empty array while
the length test then rejects the endpoint). -/

/-- The two endpoint shapes. -/
inductive EndpointShape : Type
  | primary : EndpointShape
  | secondary : EndpointShape
deriving DecidableEq, Repr

/-- A 2xx response body, as far as the extraction inspects it. -/
structure RestBody where
  embedding : Option (List Int)
  p0embedding : Option (List Int)
  p0embeddings : Option (List Int)
deriving DecidableEq, Repr

/-- Outcome of one fetch attempt. -/
inductive AttemptRes : Type
  | threw : AttemptRes
  | notOk : AttemptRes
  | ok : RestBody → AttemptRes
deriving DecidableEq, Repr

/-- The HTTP world seen by the resolver. -/
def EmbedEnv : Type := String → EndpointShape → AttemptRes

/-- Field extraction for each shape
(`d?.embedding?.values || d?.predictions?.[0]?.embedding?.values || d?.predictions?.[0]?.embeddings?.values`
for the primary shape, the last two for the secondary). -/
def extractShape (sh : EndpointShape) (b : RestBody) : Option (List Int) :=
  match sh with
  | .primary => b.embedding <|> b.p0embedding <|> b.p0embeddings
  | .secondary => b.p0embedding <|> b.p0embeddings

/-- `Array.isArray(values) && values.length`: accept only a present,
non-empty vector. -/
def acceptVec (v : Option (List Int)) : Option (List Int) :=
  match v with
  | some l => if l.isEmpty then none else some l
  | none => none

/-- One endpoint attempt: a thrown fetch or a non-2xx response yields
nothing; a 2xx response yields its accepted vector, if any. -/
def tryEndpoint (env : EmbedEnv) (region : String) (sh : EndpointShape) :
    Option (List Int) :=
  match env region sh with
  | .ok b => acceptVec (extractShape sh b)
  | _ => none

/-- The region loop of `embedViaRestRobust`: per region, primary shape then
secondary shape, then the next region. -/
def embedRegions (env : EmbedEnv) : List String → Option (List Int)
  | [] => none
  | r :: rest =>
      match tryEndpoint env r .primary with
      | some v => some v
      | none =>
          match tryEndpoint env r .secondary with
          | some v => some v
          | none => embedRegions env rest

/-- The candidate region list `[config.GCP_REGION, "europe-west4"]`. -/
def embedRegionList (cfgRegion : String) : List String :=
  [cfgRegion, "europe-west4"]

/-- The request payload: the trimmed text, truncated to 5000
characters. -/
def embedPayload (text : String) : String :=
  let t := jsTrim text
  if 5000 < t.length then strTake t 5000 else t

/-- Modelled from the spec (§4.3): the flat ordered attempt plan — for each
region in order, its primary endpoint shape then its secondary shape. -/
def attemptPlan (cfgRegion : String) : List (String × EndpointShape) :=
  (embedRegionList cfgRegion).flatMap (fun r => [(r, .primary), (r, .secondary)])

/-- Modelled from the spec (§4.3): accept the first attempt in the plan
that yields a non-empty numeric vector. -/
def specFirstSuccess (env : EmbedEnv) : List (String × EndpointShape) → Option (List Int)
  | [] => none
  | (r, sh) :: rest =>
      match tryEndpoint env r sh with
      | some v => some v
      | none => specFirstSuccess env rest

/-! ### Chat pipeline (`POST` of `src/app/api/chat/route.ts`)

The handler is modelled from the enhancer call onward, over a world value
supplying each collaborator outcome.  `JSON.stringify` of the source items
and of the metadata object are abstracted as world fields (the zero-hit
branch serializes the empty list, which is always the two bytes `[]`). -/

/-- A search hit `_source`, as far as the topic filter inspects it. -/
structure Hit where
  title : Option String
  abstract : Option String
  summary : Option String
deriving DecidableEq, Repr

/-- The topic-relevance regex of the chat route. -/
def topicRe : RE :=
  altsOf [lit "arxiv", lit "transformer", lit "neural", lit "attention",
    lit "graph", lit "retrieval", lit "optimization", lit "vision", lit "nlp",
    lit "compiler", lit "algorithm", lit "complexity", lit "systems",
    lit "database", lit "query", lit "index", lit "network", lit "protocol"]

/-- Whether a hit passes the topic filter
(`topicRe.test(s?.title || "") || topicRe.test(s?.abstract || s?.summary || "")`). -/
def topicMatchHit (h : Hit) : Bool :=
  reTest topicRe (jsOrStr h.title none) || reTest topicRe (jsOrStr h.abstract h.summary)

/-- Step 5b: keep the filtered set only when at least 3 hits remain. -/
def applyTopicFilter (hits : List Hit) : List Hit :=
  let filtered := hits.filter topicMatchHit
  if 3 ≤ filtered.length then filtered else hits

/-- The collaborator world of one chat request. -/
structure ChatWorld where
  enhLLM : EnhLLM
  embedEnv : EmbedEnv
  cfgRegion : String
  hits : List Hit
  sourcesJson : List Char
  metaJson : List Char
  schemaRejected : Bool
  chunks : List (List Char)
  streamErr : Bool
  cap : Nat

/-- Result of one chat request. -/
inductive ChatResult : Type
  | badRequest : ChatResult
  | blockedResp : String → ChatResult
  | serverError : ChatResult
  | noSources : List Char → ChatResult
  | streamed : List Char → ChatResult
deriving DecidableEq, Repr

/-- External calls performed by one chat request: enhancer model calls,
search calls, and streaming-generation calls. -/
structure PipeCounts where
  enhCalls : Nat
  searchCalls : Nat
  genStreamCalls : Nat
deriving DecidableEq, Repr

/-- The chat `POST` handler from the enhancer call onward. -/
def chatPOST (w : ChatWorld) (query : String) : ChatResult × PipeCounts :=
  if query = "" then (.badRequest, ⟨0, 0, 0⟩)
  else
    match enhanceQuery query w.enhLLM with
    | (.blocked r, n) => (.blockedResp r, ⟨n, 0, 0⟩)
    | (.ok _hypo _kws, n) =>
        match embedRegions w.embedEnv (embedRegionList w.cfgRegion) with
        | none => (.serverError, ⟨n, 0, 0⟩)
        | some _vec =>
            let hits := applyTopicFilter w.hits
            if hits.isEmpty then
              (.noSources (noSourcesBody w.metaJson), ⟨n, 1, 0⟩)
            else
              let gcalls := if w.schemaRejected then 2 else 1
              (.streamed (chatStreamBytes w.sourcesJson w.metaJson w.cap w.chunks w.streamErr),
                ⟨n, 1, gcalls⟩)

/-! ### Card-listing endpoint (`src/app/api/cards/route.ts`)

Two revisions exist in the tree: the earlier one (`src/unnamed/part_004`,
first half) orders by `createdAt` only and paginates with a numeric
cursor; the later one (second half) adds `pinnedOnly`, `since` and a
stable `(createdAt, id)` cursor pair.  The document store is modelled as a
list of documents plus the outcome of the indexed query attempt; document
`createdAt` values are numeric or absent (`orderBy` and the in-memory
`typeof x.createdAt === "number"` test both drop documents without a
numeric `createdAt`), and string comparison (`<` and `localeCompare` on
the hex document ids) is modelled as code-point order. -/

/-- A `study_cards` document as far as the listing endpoint inspects it. -/
structure CardDoc where
  id : String
  sessionId : String
  turnId : String
  pinned : Option Bool
  createdAt : Option Int
deriving DecidableEq, Repr

/-- The store world of one listing request: the collection contents and
the outcome of the indexed query (`none` means it succeeded; otherwise the
thrown error code and message). -/
structure ListEnv where
  docs : List CardDoc
  indexedOutcome : Option (Option Int × String)
deriving DecidableEq, Repr

/-- The missing-index test:
`code === 9 || /FAILED_PRECONDITION|index/i.test(msg)`. -/
def needsIndexRe : RE :=
  altsOf [lit "FAILED_PRECONDITION", lit "index"]

/-- Whether a thrown error is the missing-composite-index condition. -/
def needsIndex (code : Option Int) (msg : String) : Bool :=
  code == some 9 || reTest needsIndexRe msg

/-- A listing response. -/
structure ListResp where
  status : Nat
  cards : List CardDoc
  nextCursor : Option (Int × String)
  warning : Option String
  errorMsg : Option String
deriving DecidableEq, Repr

/-- Parameters of the later revision. -/
structure ListParams2 where
  sessionId : String
  turnId : Option String
  pinnedOnly : Option Bool
  since : Option Int
  limitRaw : Option String
  cursor : Option (Int × String)
deriving DecidableEq, Repr

/-- `Math.max(1, Math.min(parseInt(limit || "60", 10), 200))`. -/
def limit2 (ps : ListParams2) : Option Int :=
  jsMaxNaN 1 (jsMinNaN (parseIntJS (jsOrStr ps.limitRaw (some "60"))) 200)

/-- The clamped limit as a count (meaningful whenever the limit parameter
parses; the NaN case makes the real indexed query throw before limiting). -/
def limitNat2 (ps : ListParams2) : Nat :=
  match limit2 ps with
  | some k => k.toNat
  | none => 0

/-- The `where` clauses pushed to the store by both paths of the later
revision (`sessionId`, optional `turnId`, optional `pinned == true`). -/
def wheres2 (ps : ListParams2) (d : CardDoc) : Bool :=
  d.sessionId == ps.sessionId &&
    (match ps.turnId with | some t => d.turnId == t | none => true) &&
    (match ps.pinnedOnly with | some true => d.pinned == some true | _ => true)

/-- The `createdAt >= since` filter (absent `createdAt` never passes). -/
def sinceOk (ps : ListParams2) (d : CardDoc) : Bool :=
  match ps.since with
  | none => true
  | some s => match d.createdAt with | some c => s ≤ c | none => false

/-- Sort key of a document (its numeric `createdAt`, defaulting as the
comparator does). -/
def ckey (d : CardDoc) : Int :=
  d.createdAt.getD 0

/-- The `(createdAt desc, id desc)` order of the indexed query. -/
def keyGE2 (a b : CardDoc) : Prop :=
  ckey b < ckey a ∨ (ckey a = ckey b ∧ b.id ≤ a.id)

instance : DecidableRel keyGE2 := fun a b => by
  unfold keyGE2
  infer_instance

/-- The in-memory comparator of the later revision
(`b.createdAt - a.createdAt`, ties by `localeCompare` of ids, descending),
as the induced before-or-equal relation `compare(a, b) <= 0`. -/
def rFall2 (a b : CardDoc) : Prop :=
  if ckey a = ckey b then b.id ≤ a.id else ckey b - ckey a ≤ 0

instance : DecidableRel rFall2 := fun a b => by
  unfold rFall2
  infer_instance

/-- Cursor test of the indexed query: strictly after the cursor position
in `(createdAt desc, id desc)` order. -/
def strictAfter2 (c : Int × String) (d : CardDoc) : Bool :=
  ckey d < c.1 || (ckey d == c.1 && d.id < c.2)

/-- Cursor test of the in-memory path, as written in the code. -/
def fallbackCursorKeep (c : Int × String) (d : CardDoc) : Bool :=
  if ckey d < c.1 then true
  else if c.1 < ckey d then false
  else d.id < c.2

/-- Modelled from the documented store interface (§6): the indexed,
ordered, paginated query of the later revision — the documents matching
the filters (those lacking a numeric `createdAt` are excluded by
`orderBy`), in `(createdAt desc, id desc)` order, restricted to the
entries strictly after the cursor, capped at the limit. -/
def indexedQuery2 (docs : List CardDoc) (ps : ListParams2) : List CardDoc :=
  let base := docs.filter (fun d => wheres2 ps d && d.createdAt.isSome && sinceOk ps d)
  let sorted := List.insertionSort keyGE2 base
  let after := match ps.cursor with
    | none => sorted
    | some c => sorted.filter (fun d => strictAfter2 c d)
  after.take (limitNat2 ps)

/-- The in-memory fallback of the later revision: fetch with the filters
only, then filter, sort, cursor-filter and slice in memory. -/
def fallbackQuery2 (docs : List CardDoc) (ps : ListParams2) : List CardDoc :=
  let fetched := docs.filter (fun d => wheres2 ps d)
  let mem := (fetched.filter (fun d => d.createdAt.isSome)).filter (fun d => sinceOk ps d)
  let sorted := List.insertionSort rFall2 mem
  let after := match ps.cursor with
    | none => sorted
    | some c => sorted.filter (fun d => fallbackCursorKeep c d)
  after.take (limitNat2 ps)

/-- Next-cursor computation of the later revision (emitted only when the
page is full and the last entry has truthy `createdAt` and `id`). -/
def nextCursor2 (sliced : List CardDoc) (limit : Nat) : Option (Int × String) :=
  if sliced.length = limit then
    match sliced.getLast? with
    | some l => if ckey l ≠ 0 ∧ l.id ≠ "" then some (ckey l, l.id) else none
    | none => none
  else none

/-- The later-revision `GET`: indexed path, with the in-memory fallback on
the missing-index condition. -/
def cardsGET2 (env : ListEnv) (ps : ListParams2) : ListResp :=
  if ps.sessionId = "" then ⟨400, [], none, none, some "sessionId required"⟩
  else
    match env.indexedOutcome with
    | none =>
        let cards := indexedQuery2 env.docs ps
        ⟨200, cards, nextCursor2 cards (limitNat2 ps), none, none⟩
    | some (code, msg) =>
        if needsIndex code msg then
          let cards := fallbackQuery2 env.docs ps
          ⟨200, cards, nextCursor2 cards (limitNat2 ps), some "missing_index", none⟩
        else ⟨500, [], none, none, some "internal"⟩

/-- Parameters of the earlier revision. -/
structure ListParams1 where
  sessionId : String
  turnId : Option String
  limitRaw : Option String
  cursorNum : Option Int
deriving DecidableEq, Repr

/-- `Math.min(parseInt(limit || "60", 10), 200)` — no lower clamp. -/
def limit1 (ps : ListParams1) : Option Int :=
  jsMinNaN (parseIntJS (jsOrStr ps.limitRaw (some "60"))) 200

/-- The `where` clauses of the earlier revision. -/
def wheres1 (ps : ListParams1) (d : CardDoc) : Bool :=
  d.sessionId == ps.sessionId &&
    (match ps.turnId with | some t => d.turnId == t | none => true)

/-- The `createdAt desc` order of the earlier revision (ties left to the
stable order of the comparator sort). -/
def rFall1 (a b : CardDoc) : Prop :=
  ckey b ≤ ckey a

instance : DecidableRel rFall1 := fun a b => by
  unfold rFall1
  infer_instance

/-- The indexed, ordered, paginated query of the earlier revision, for a
nonnegative limit (documents lacking a numeric `createdAt` are excluded by
`orderBy`). -/
def indexedQuery1 (docs : List CardDoc) (ps : ListParams1) : List CardDoc :=
  let base := docs.filter (fun d => wheres1 ps d && d.createdAt.isSome)
  let sorted := List.insertionSort rFall1 base
  let after := match ps.cursorNum with
    | none => sorted
    | some c => sorted.filter (fun d => ckey d < c)
  after.take (match limit1 ps with | some k => k.toNat | none => 0)

/-- The in-memory fallback of the earlier revision; note the final
`all.slice(0, limit)`, which for a negative limit keeps everything but the
last `|limit|` entries. -/
def fallbackQuery1 (docs : List CardDoc) (ps : ListParams1) : List CardDoc :=
  let fetched := docs.filter (fun d => wheres1 ps d)
  let mem := fetched.filter (fun d => d.createdAt.isSome)
  let sorted := List.insertionSort rFall1 mem
  let after := match ps.cursorNum with
    | none => sorted
    | some c => sorted.filter (fun d => ckey d < c)
  jsArraySlice0 after (limit1 ps)

/-- Length-equals-limit test (`sliced.length === limit` with a possibly
non-numeric limit). -/
def lenEqLimit (n : Nat) (l : Option Int) : Bool :=
  match l with
  | some k => (n : Int) == k
  | none => false

/-- Next-cursor computation of the earlier revision. -/
def nextCursor1 (sliced : List CardDoc) (l : Option Int) : Option Int :=
  if lenEqLimit sliced.length l then
    match sliced.getLast? with
    | some d => if ckey d ≠ 0 then some (ckey d) else none
    | none => none
  else none

/-- The earlier-revision `GET`. -/
def cardsGET1 (env : ListEnv) (ps : ListParams1) : ListResp :=
  if ps.sessionId = "" then ⟨400, [], none, none, some "sessionId required"⟩
  else
    match env.indexedOutcome with
    | none =>
        let cards := indexedQuery1 env.docs ps
        ⟨200, cards, (nextCursor1 cards (limit1 ps)).map (fun c => (c, "")), none, none⟩
    | some (code, msg) =>
        if needsIndex code msg then
          let cards := fallbackQuery1 env.docs ps
          ⟨200, cards, (nextCursor1 cards (limit1 ps)).map (fun c => (c, "")), some "missing_index", none⟩
        else ⟨500, [], none, none, some "internal"⟩

/-! ### Stream lemmas -/

/-- answerText distributes over cons. -/
theorem answerText_cons (s : Seg) (segs : List Seg) :
    answerText (s :: segs) =
      (match s with | .text t => t | _ => []) ++ answerText segs := by
  cases s <;> simp [answerText]

/-- truncCount distributes over cons. -/
theorem truncCount_cons (s : Seg) (segs : List Seg) :
    truncCount (s :: segs) =
      (if s = .trunc then 1 else 0) + truncCount segs := by
  cases s <;> simp [truncCount, List.filter, Nat.add_comm]

/-- The cons case of the chunk loop, with the slice test resolved: a chunk
that fits within the budget is emitted whole, a chunk that does not fit is
cut at the budget and followed by the marker. -/
theorem emitLoop_cons_eq (cap emitted : Nat) (c : List Char) (rest : List (List Char)) :
    emitLoop cap emitted (c :: rest) =
      if c.isEmpty then emitLoop cap emitted rest
      else if cap ≤ emitted then [.trunc]
      else if c.length ≤ cap - emitted then
        Seg.text c :: emitLoop cap (emitted + c.length) rest
      else [Seg.text (c.take (cap - emitted)), Seg.trunc] := by
  by_cases hc : c.isEmpty
  · simp [emitLoop, hc]
  · by_cases hfull : cap ≤ emitted
    · simp [emitLoop, hc, hfull]
    · by_cases hfit : c.length ≤ cap - emitted
      · have hs : c.take (cap - emitted) = c := List.take_of_length_le hfit
        have hnc : ¬ (c.take (cap - emitted)).length < c.length := by
          rw [hs]
          omega
        simp [emitLoop, hc, hfull, hfit, hnc, hs]
      · have hlt : (c.take (cap - emitted)).length < c.length := by
          have := List.length_take (cap - emitted) c
          omega
        simp [emitLoop, hc, hfull, hfit, hlt]

/-- answerText on a text segment. -/
theorem answerText_text (t : List Char) (segs : List Seg) :
    answerText (Seg.text t :: segs) = t ++ answerText segs := by
  simp [answerText]

/-- answerText ignores the truncation marker. -/
theorem answerText_trunc (segs : List Seg) :
    answerText (Seg.trunc :: segs) = answerText segs := by
  simp [answerText]

/-- answerLen on a text segment. -/
theorem answerLen_text (t : List Char) (segs : List Seg) :
    answerLen (Seg.text t :: segs) = t.length + answerLen segs := by
  simp [answerLen, answerText_text]

/-- truncCount ignores text segments. -/
theorem truncCount_text (t : List Char) (segs : List Seg) :
    truncCount (Seg.text t :: segs) = truncCount segs := by
  simp [truncCount, List.filter]

/-- truncCount on the marker. -/
theorem truncCount_trunc (segs : List Seg) :
    truncCount (Seg.trunc :: segs) = truncCount segs + 1 := by
  simp [truncCount, List.filter, Nat.add_comm]

/-- The chunk-loop invariant: starting below the cap, the loop emits at
most the remaining budget of answer text, emits the truncation marker at
most once and only as the final segment, reproduces the full model text
exactly when no marker was emitted, and otherwise emits exactly the budget
as a proper prefix of the full model text. -/
theorem emitLoop_invariant (cap : Nat) (cs : List (List Char)) :
    ∀ emitted : Nat, emitted ≤ cap →
    answerLen (emitLoop cap emitted cs) ≤ cap - emitted ∧
    truncCount (emitLoop cap emitted cs) ≤ 1 ∧
    (truncCount (emitLoop cap emitted cs) = 0 →
      answerText (emitLoop cap emitted cs) = cs.flatten) ∧
    (truncCount (emitLoop cap emitted cs) = 1 →
      answerLen (emitLoop cap emitted cs) = cap - emitted ∧
      (∃ pre, emitLoop cap emitted cs = pre ++ [Seg.trunc] ∧ truncCount pre = 0) ∧
      ∃ tail, tail ≠ [] ∧ cs.flatten = answerText (emitLoop cap emitted cs) ++ tail) := by
  induction cs with
  | nil =>
      intro emitted _
      simp [emitLoop, answerLen, answerText, truncCount]
  | cons c rest ih =>
      intro emitted hle
      rw [emitLoop_cons_eq]
      by_cases hc : c.isEmpty
      · rw [if_pos hc]
        have hc0 : c = [] := by simpa [List.isEmpty_iff] using hc
        simpa [hc0] using ih emitted hle
      · rw [if_neg hc]
        have hcne : c ≠ [] := by simpa [List.isEmpty_iff] using hc
        by_cases hfull : cap ≤ emitted
        · rw [if_pos hfull]
          have hcap : cap - emitted = 0 := by omega
          refine ⟨?_, ?_, ?_, ?_⟩
          · rw [hcap]
            simp [answerLen, answerText]
          · simp [truncCount, List.filter]
          · intro h0
            simp [truncCount, List.filter] at h0
          · intro _
            refine ⟨?_, ⟨[], by simp, by simp [truncCount]⟩,
              c ++ rest.flatten, by simp [hcne], ?_⟩
            · rw [hcap]
              simp [answerLen, answerText]
            · simp [answerText]
        · rw [if_neg hfull]
          by_cases hfit : c.length ≤ cap - emitted
          · rw [if_pos hfit]
            have hnext : emitted + c.length ≤ cap := by omega
            obtain ⟨h1, h2, h3, h4⟩ := ih (emitted + c.length) hnext
            refine ⟨?_, ?_, ?_, ?_⟩
            · rw [answerLen_text]
              omega
            · rw [truncCount_text]
              exact h2
            · intro h0
              rw [truncCount_text] at h0
              rw [answerText_text, List.flatten_cons, h3 h0]
            · intro h0
              rw [truncCount_text] at h0
              obtain ⟨ha, ⟨pre, hpre, hpre0⟩, ⟨tl, htlne, htl⟩⟩ := h4 h0
              refine ⟨?_, ?_, tl, htlne, ?_⟩
              · rw [answerLen_text, ha, ← Nat.sub_sub]
                exact Nat.add_sub_cancel' hfit
              · refine ⟨Seg.text c :: pre, ?_, ?_⟩
                · rw [hpre]
                  simp
                · rw [truncCount_text]
                  exact hpre0
              · rw [answerText_text, List.flatten_cons, htl, List.append_assoc]
          · rw [if_neg hfit]
            have hslice : (c.take (cap - emitted)).length = cap - emitted := by
              have := List.length_take (cap - emitted) c
              omega
            refine ⟨?_, ?_, ?_, ?_⟩
            · rw [answerLen_text]
              have hz : answerLen [Seg.trunc] = 0 := by simp [answerLen, answerText]
              rw [hz, hslice]
              omega
            · rw [truncCount_text, truncCount_trunc]
              simp [truncCount]
            · intro h0
              rw [truncCount_text, truncCount_trunc] at h0
              omega
            · intro _
              refine ⟨?_, ⟨[Seg.text (c.take (cap - emitted))], by simp,
                  by rw [truncCount_text]; rfl⟩,
                c.drop (cap - emitted) ++ rest.flatten, ?_, ?_⟩
              · rw [answerLen_text]
                have hz : answerLen [Seg.trunc] = 0 := by simp [answerLen, answerText]
                rw [hz, hslice]
                omega
              · have hd : (c.drop (cap - emitted)).length ≠ 0 := by
                  simp only [List.length_drop]
                  omega
                intro hcontra
                rcases List.append_eq_nil.mp hcontra with ⟨h1, _⟩
                exact hd (by simp [h1])
              · rw [answerText_text, answerText_trunc]
                have hz : answerText ([] : List Seg) = [] := rfl
                rw [hz, List.append_nil, List.flatten_cons, ← List.append_assoc,
                  List.take_append_drop]

/-- answerText distributes over append. -/
theorem answerText_append (a b : List Seg) :
    answerText (a ++ b) = answerText a ++ answerText b := by
  simp [answerText, List.filterMap_append]

/-- truncCount distributes over append. -/
theorem truncCount_append (a b : List Seg) :
    truncCount (a ++ b) = truncCount a + truncCount b := by
  simp [truncCount, List.filter_append]

/-- The error marker carries no answer text and no truncation marker, so
the answer-phase segments have the same answer text and marker count as
the raw chunk-loop output. -/
theorem streamSegs_counts (cap : Nat) (cs : List (List Char)) (err : Bool) :
    answerText (streamSegs cap cs err) = answerText (emitLoop cap 0 cs) ∧
    truncCount (streamSegs cap cs err) = truncCount (emitLoop cap 0 cs) := by
  unfold streamSegs
  by_cases h : hasTrunc (emitLoop cap 0 cs)
  · simp [h]
  · cases err <;>
      simp [h, answerText_append, truncCount_append, answerText, truncCount]

/-- The marker is present exactly when the marker count is nonzero. -/
theorem hasTrunc_iff (segs : List Seg) :
    hasTrunc segs = true ↔ truncCount segs ≠ 0 := by
  induction segs with
  | nil => simp [hasTrunc, truncCount]
  | cons s rest ih =>
      cases s
      · simpa [hasTrunc, truncCount_text, List.contains_cons] using ih
      · simp [hasTrunc, truncCount_trunc, List.contains_cons]
      · simpa [hasTrunc, truncCount_cons, List.contains_cons] using ih

/-- C3: for every stream, the answer text emitted after the two preambles
never exceeds the configured character cap; the truncation marker appears
at most once; an untruncated stream reproduces the model text exactly (so
the marker never appears); and a truncated stream emits exactly the cap,
as a proper prefix of the model text, with the marker as the final
segment. -/
theorem chat_stream_cap_and_marker (cap : Nat) (cs : List (List Char)) (err : Bool) :
    answerLen (streamSegs cap cs err) ≤ cap ∧
    truncCount (streamSegs cap cs err) ≤ 1 ∧
    (truncCount (streamSegs cap cs err) = 0 →
      answerText (streamSegs cap cs err) = cs.flatten) ∧
    (truncCount (streamSegs cap cs err) = 1 →
      answerLen (streamSegs cap cs err) = cap ∧
      (∃ pre, streamSegs cap cs err = pre ++ [Seg.trunc] ∧ truncCount pre = 0) ∧
      ∃ tail, tail ≠ [] ∧ cs.flatten = answerText (streamSegs cap cs err) ++ tail) := by
  obtain ⟨hT, hC⟩ := streamSegs_counts cap cs err
  obtain ⟨h1, h2, h3, h4⟩ := emitLoop_invariant cap cs 0 (Nat.zero_le cap)
  refine ⟨?_, ?_, ?_, ?_⟩
  · simpa [answerLen, hT] using h1
  · rw [hC]
    exact h2
  · intro h0
    rw [hC] at h0
    rw [hT]
    exact h3 h0
  · intro h0
    rw [hC] at h0
    obtain ⟨ha, ⟨pre, hpre, hpre0⟩, ⟨tl, htlne, htl⟩⟩ := h4 h0
    have hseg : streamSegs cap cs err = emitLoop cap 0 cs := by
      unfold streamSegs
      have : hasTrunc (emitLoop cap 0 cs) = true := (hasTrunc_iff _).mpr (by omega)
      simp [this]
    refine ⟨?_, ⟨pre, by rw [hseg, hpre], hpre0⟩, tl, htlne, ?_⟩
    · simpa [answerLen, hT] using ha
    · rw [hT]
      exact htl

/-- C3 witness: a concrete truncated stream (cap 5, chunks `ab`, `cdef`)
emits exactly 5 answer characters, one final marker, and a proper prefix
of the model text. -/
theorem chat_stream_cap_and_marker_witness :
    truncCount (streamSegs 5 ["ab".data, "cdef".data] false) = 1 ∧
    answerLen (streamSegs 5 ["ab".data, "cdef".data] false) = 5 ∧
    answerLen (streamSegs 5 ["ab".data, "cdef".data] false) ≤ 5 := by
  have h := chat_stream_cap_and_marker 5 ["ab".data, "cdef".data] false
  have h1 : truncCount (streamSegs 5 ["ab".data, "cdef".data] false) = 1 := by decide
  exact ⟨h1, (h.2.2.2 h1).1, h.1⟩

/-- Whether an enhancer result is the blocked variant. -/
def EnhanceResult.isBlockedR : EnhanceResult → Bool
  | .blocked _ => true
  | .ok _ _ => false

/-- C2: for every chat request that reaches retrieval (nonempty query, not
blocked, embedding resolved), the response body is exactly the serialized
source list, its delimiter, the serialized metadata, its delimiter, and
only then the answer phase — in the zero-hit branch with the empty source
list `[]` and the fixed answer, in the streamed branch with the rendered
stream segments, regardless of how many model chunks arrive (including
none). -/
theorem chat_stream_preamble_order (w : ChatWorld) (q : String) (hq : q ≠ "")
    (henh : (enhanceQuery q w.enhLLM).1.isBlockedR = false)
    (hemb : (embedRegions w.embedEnv (embedRegionList w.cfgRegion)).isSome = true) :
    (chatPOST w q).1 =
      (if (applyTopicFilter w.hits).isEmpty then
        ChatResult.noSources
          ("[]".data ++ SOURCES_DELIM ++ w.metaJson ++ META_DELIM ++ NO_SOURCES_ANSWER)
      else
        ChatResult.streamed
          (w.sourcesJson ++ SOURCES_DELIM ++ w.metaJson ++ META_DELIM ++
            renderSegs (streamSegs w.cap w.chunks w.streamErr))) := by
  unfold chatPOST
  rw [if_neg hq]
  rcases henhres : enhanceQuery q w.enhLLM with ⟨res, n⟩
  cases res with
  | blocked r =>
      rw [henhres] at henh
      simp [EnhanceResult.isBlockedR] at henh
  | ok h k =>
      rcases hembres : embedRegions w.embedEnv (embedRegionList w.cfgRegion) with _ | v
      · rw [hembres] at hemb
        simp at hemb
      · by_cases hhits : (applyTopicFilter w.hits).isEmpty
        · simp [henhres, hembres, hhits, noSourcesBody, chatStreamBytes]
        · simp [henhres, hembres, hhits, noSourcesBody, chatStreamBytes]

/-- C2 witness: a concrete zero-hit request and a concrete streamed
request, both with the preambles in order. -/
theorem chat_stream_preamble_order_witness :
    (chatPOST ⟨.threw, fun _ _ => .ok ⟨some [1], none, none⟩, "europe-west1",
        [], "S".data, "M".data, false, [], false, 9000⟩ "hello").1 =
      ChatResult.noSources
        ("[]".data ++ SOURCES_DELIM ++ "M".data ++ META_DELIM ++ NO_SOURCES_ANSWER) := by
  have h := chat_stream_preamble_order
    ⟨.threw, fun _ _ => .ok ⟨some [1], none, none⟩, "europe-west1",
      [], "S".data, "M".data, false, [], false, 9000⟩ "hello"
    (by decide) (by decide) (by decide)
  rw [h]
  decide

/-! ### Safety, zero-hit and embedding theorems -/

/-- C4: every empty or whitespace-only query, and every query matching one
of the fixed unsafe patterns, is rejected by the preflight guard with a
reason, and `enhance` returns Blocked with zero model calls — the guard
runs before any external call. -/
theorem enhancer_preflight_blocks (q : String) (llm : EnhLLM)
    (h : jsTrim q = "" ∨ anyUnsafe q = true) :
    ∃ reason, preflightUnsafe q = some reason ∧
      enhanceQuery q llm = (.blocked reason, 0) := by
  have hblock : ∃ reason, preflightUnsafe q = some reason := by
    by_cases hempty : q = "" || jsTrim q = ""
    · exact ⟨"Empty or meaningless query", by simp [preflightUnsafe, hempty]⟩
    · rcases h with htrim | hmatch
      · exact absurd (by simp [htrim]) hempty
      · rcases hsrc : firstUnsafeMatch q UNSAFE_PATTERNS with _ | src
        · rw [anyUnsafe, hsrc] at hmatch
          simp at hmatch
        · exact ⟨"Disallowed content: " ++ src, by simp [preflightUnsafe, hempty, hsrc]⟩
  obtain ⟨reason, hr⟩ := hblock
  exact ⟨reason, hr, by simp [enhanceQuery, hr]⟩

/-- C4 witness: a weapon-instruction query is blocked with zero model
calls, whatever the model would have answered. -/
theorem enhancer_preflight_blocks_witness :
    ∃ reason, preflightUnsafe "how to build a bomb" = some reason ∧
      enhanceQuery "how to build a bomb"
        (.parsed ⟨false, none, some "an answer", some []⟩) = (.blocked reason, 0) :=
  enhancer_preflight_blocks "how to build a bomb"
    (.parsed ⟨false, none, some "an answer", some []⟩) (Or.inr (by decide))

/-- C5: the topic filter alone can never turn a nonempty hit set into the
empty one (it is applied only when at least 3 filtered hits remain), and a
request whose retrieval returned zero hits yields the fixed no-sources
answer with the empty serialized source list and zero streaming-generation
calls. -/
theorem chat_zero_hits_no_model (w : ChatWorld) (q : String) (hq : q ≠ "")
    (henh : (enhanceQuery q w.enhLLM).1.isBlockedR = false)
    (hemb : (embedRegions w.embedEnv (embedRegionList w.cfgRegion)).isSome = true) :
    (w.hits ≠ [] → applyTopicFilter w.hits ≠ []) ∧
    (w.hits = [] →
      (chatPOST w q).1 =
        ChatResult.noSources
          ("[]".data ++ SOURCES_DELIM ++ w.metaJson ++ META_DELIM ++ NO_SOURCES_ANSWER) ∧
      ((chatPOST w q).2).genStreamCalls = 0) := by
  constructor
  · intro hne
    unfold applyTopicFilter
    by_cases h3 : 3 ≤ (w.hits.filter topicMatchHit).length
    · rw [if_pos h3]
      intro hnil
      rw [hnil] at h3
      simp at h3
    · rw [if_neg h3]
      exact hne
  · intro hnil
    have hempty : (applyTopicFilter w.hits).isEmpty = true := by
      unfold applyTopicFilter
      rw [hnil]
      simp
    have h := chat_stream_preamble_order w q hq henh hemb
    constructor
    · rw [h, if_pos hempty]
    · rcases henhres : enhanceQuery q w.enhLLM with ⟨res, n⟩
      cases res with
      | blocked r =>
          rw [henhres] at henh
          simp [EnhanceResult.isBlockedR] at henh
      | ok hh kk =>
          rcases hembres : embedRegions w.embedEnv (embedRegionList w.cfgRegion) with _ | v
          · rw [hembres] at hemb
            simp at hemb
          · simp [chatPOST, hq, henhres, hembres, hempty]

/-- C5 witness: with a concrete on-topic hit the filter keeps the hit set
nonempty, and with concrete zero retrieval hits the request produces the
fixed no-sources body and zero streaming-generation calls. -/
theorem chat_zero_hits_no_model_witness :
    applyTopicFilter [⟨some "graph theory", none, none⟩] ≠ [] ∧
    ((chatPOST ⟨.threw, fun _ _ => .ok ⟨some [1], none, none⟩, "europe-west1",
        [], "S".data, "M".data, false, [], false, 9000⟩ "hello").2).genStreamCalls = 0 := by
  constructor
  · exact (chat_zero_hits_no_model
      ⟨.threw, fun _ _ => .ok ⟨some [1], none, none⟩, "europe-west1",
        [⟨some "graph theory", none, none⟩], "S".data, "M".data, false, [], false, 9000⟩
      "hello" (by decide) (by decide) (by decide)).1 (by decide)
  · exact ((chat_zero_hits_no_model
      ⟨.threw, fun _ _ => .ok ⟨some [1], none, none⟩, "europe-west1",
        [], "S".data, "M".data, false, [], false, 9000⟩
      "hello" (by decide) (by decide) (by decide)).2 rfl).2

/-- C6: `embed` truncates its input to at most 5000 characters (and only
truncates when needed); the region loop equals the spec-side plan — each
region in order, primary endpoint shape then secondary shape, first
non-empty numeric vector accepted; and when every region/endpoint attempt
fails, `embed` resolves to nothing and the chat request returns the
server-error response with zero search calls and zero generation calls. -/
theorem embed_resolver_and_error (text : String) (env : EmbedEnv) (cfg : String)
    (w : ChatWorld) (q : String) (hq : q ≠ "")
    (henh : (enhanceQuery q w.enhLLM).1.isBlockedR = false)
    (hfail : ∀ r sh, r ∈ embedRegionList w.cfgRegion →
      tryEndpoint w.embedEnv r sh = none) :
    (embedPayload text).length ≤ 5000 ∧
    ((jsTrim text).length ≤ 5000 → embedPayload text = jsTrim text) ∧
    embedRegions env (embedRegionList cfg) = specFirstSuccess env (attemptPlan cfg) ∧
    embedRegions w.embedEnv (embedRegionList w.cfgRegion) = none ∧
    chatPOST w q = (.serverError, ⟨(enhanceQuery q w.enhLLM).2, 0, 0⟩) := by
  have hplan : ∀ env2 (r1 : String),
      embedRegions env2 [r1] = specFirstSuccess env2 [(r1, .primary), (r1, .secondary)] := by
    intro env2 r1
    cases h1 : tryEndpoint env2 r1 .primary <;> cases h2 : tryEndpoint env2 r1 .secondary <;>
      simp [embedRegions, specFirstSuccess, h1, h2]
  have hplan2 : ∀ env2 (r1 r2 : String),
      embedRegions env2 [r1, r2] =
        specFirstSuccess env2 [(r1, .primary), (r1, .secondary), (r2, .primary), (r2, .secondary)] := by
    intro env2 r1 r2
    have htail := hplan env2 r2
    cases h1 : tryEndpoint env2 r1 .primary <;> cases h2 : tryEndpoint env2 r1 .secondary <;>
      simp [embedRegions, specFirstSuccess, h1, h2, htail]
  have hfailnone : embedRegions w.embedEnv (embedRegionList w.cfgRegion) = none := by
    unfold embedRegionList
    rw [hplan2]
    have h1 := hfail w.cfgRegion .primary (by simp [embedRegionList])
    have h2 := hfail w.cfgRegion .secondary (by simp [embedRegionList])
    have h3 := hfail "europe-west4" .primary (by simp [embedRegionList])
    have h4 := hfail "europe-west4" .secondary (by simp [embedRegionList])
    simp [specFirstSuccess, h1, h2, h3, h4]
  refine ⟨?_, ?_, ?_, hfailnone, ?_⟩
  · unfold embedPayload
    by_cases hlen : 5000 < (jsTrim text).length
    · rw [if_pos hlen]
      have ht := List.length_take 5000 (jsTrim text).data
      have heq : (strTake (jsTrim text) 5000).length = ((jsTrim text).data.take 5000).length := rfl
      have heq2 : (jsTrim text).length = (jsTrim text).data.length := rfl
      omega
    · rw [if_neg hlen]
      omega
  · intro hle
    unfold embedPayload
    rw [if_neg (by omega)]
  · unfold embedRegionList attemptPlan
    simpa [embedRegionList, List.flatMap] using hplan2 env cfg "europe-west4"
  · rcases henhres : enhanceQuery q w.enhLLM with ⟨res, n⟩
    cases res with
    | blocked r =>
        rw [henhres] at henh
        simp [EnhanceResult.isBlockedR] at henh
    | ok hh kk =>
        simp [chatPOST, hq, henhres, hfailnone]

/-- C6 witness: with every attempt failing (HTTP world constantly
throwing), a concrete request resolves no vector and yields the
server-error response without search or generation calls; a concrete long
input is truncated to 5000 characters. -/
theorem embed_resolver_and_error_witness :
    (embedPayload (String.mk (List.replicate 6000 'a'))).length ≤ 5000 ∧
    chatPOST ⟨.threw, fun _ _ => .threw, "europe-west1",
        [], "S".data, "M".data, false, [], false, 9000⟩ "hello" =
      (.serverError, ⟨1, 0, 0⟩) := by
  have h := embed_resolver_and_error (String.mk (List.replicate 6000 'a'))
    (fun _ _ => .threw) "europe-west1"
    ⟨.threw, fun _ _ => .threw, "europe-west1",
      [], "S".data, "M".data, false, [], false, 9000⟩ "hello"
    (by decide) (by decide) (by intro r sh _; rfl)
  refine ⟨h.1, ?_⟩
  have h5 := h.2.2.2.2
  have hn : (enhanceQuery "hello" EnhLLM.threw).2 = 1 := by decide
  rw [h5]
  simp [hn]

/-! ### Enhancer heuristic-skip theorems -/

/-- C9 counterexample: a concrete code-like, non-blocked query — the
current `enhanceQuery` has no heuristic skip, performs one model call for
it, and (here) replaces it by the model hypothetical instead of passing it
through unchanged. -/
theorem enhancer_no_heuristic_skip_counterexample :
    shouldSkipEnhancer "see the <div> element in HTML" = true ∧
    preflightUnsafe "see the <div> element in HTML" = none ∧
    enhanceQuery "see the <div> element in HTML"
        (.parsed ⟨false, none, some "Short answer.", some []⟩) =
      (.ok "Short answer." [], 1) := by
  refine ⟨by decide, by decide, by decide⟩

/-- C9 (amended): the heuristic skip lives in the inline enhancer of the
part_006 chat-route revision — for every query whose trimmed text is long,
code-like, multi-sentence or comma-dense, `strengthenQuery` performs no
model call, leaves the cache untouched, and returns the trimmed query
unchanged. -/
theorem strengthen_query_heuristic_skip (q : String) (cache : EnhCache)
    (now : Int) (llm : EnhLLM2) (h : shouldSkipEnhancer (jsTrim q) = true) :
    strengthenQuery q cache now llm = (jsTrim q, cache, 0) := by
  by_cases hb : jsTrim q = ""
  · simp [strengthenQuery, hb]
  · simp [strengthenQuery, hb, h]

/-- C9 witness: the concrete code-like query is skipped by the inline
enhancer with zero model calls. -/
theorem strengthen_query_heuristic_skip_witness :
    strengthenQuery "  see the <div> element in HTML " [] 0 .threw =
      ("see the <div> element in HTML", [], 0) :=
  strengthen_query_heuristic_skip "  see the <div> element in HTML " [] 0 .threw
    (by decide)

/-! ### Card-generator theorems -/

/-- Lookup after setting the same key. -/
theorem assocGet_assocSet_self {α : Type} (k : String) (v : α)
    (l : List (String × α)) : assocGet k (assocSet k v l) = some v := by
  induction l with
  | nil => simp [assocGet, assocSet]
  | cons h rest ih =>
      by_cases hk : h.1 = k
      · simp [assocGet, assocSet, hk]
      · simp [assocGet, assocSet, hk, ih]

/-- C1: the card id is a pure function of the session id, turn id, full
answer text and sorted source-id list (in particular independent of source
order, titles, topic and owner); running the operation writes the card
under that id, and a second run with the same parameters — whatever the
model would answer the second time — returns the same id with
`cached = true`, performs zero model calls, and leaves the store
unchanged. -/
theorem card_id_pure_and_idempotent (p q : GenerateParams) (env env2 : GenEnv)
    (st : Store)
    (hs : p.sessionId = q.sessionId) (ht : p.turnId = q.turnId)
    (ha : p.answer = q.answer)
    (hids : sortIdsAsc (p.sources.map SourceItem.id) =
      sortIdsAsc (q.sources.map SourceItem.id)) :
    cardIdOf p = cardIdOf q ∧
    (generateAndStoreCard env st p).1.id = cardIdOf p ∧
    assocGet (cardIdOf p) ((generateAndStoreCard env st p).2.1).cards ≠ none ∧
    (generateAndStoreCard env2 (generateAndStoreCard env st p).2.1 p).1.id =
      (generateAndStoreCard env st p).1.id ∧
    (generateAndStoreCard env2 (generateAndStoreCard env st p).2.1 p).1.cached = true ∧
    (generateAndStoreCard env2 (generateAndStoreCard env st p).2.1 p).2.2 = 0 ∧
    (generateAndStoreCard env2 (generateAndStoreCard env st p).2.1 p).2.1 =
      (generateAndStoreCard env st p).2.1 := by
  constructor
  · unfold cardIdOf cardIdInput
    rw [hs, ht, ha, hids]
  · rcases hlook : assocGet (cardIdOf p) st.cards with _ | c
    · simp [generateAndStoreCard, hlook, assocGet_assocSet_self]
    · simp [generateAndStoreCard, hlook]

/-- Concrete parameters for the C1 witness: same session, turn, answer and
source ids, but different source order, titles and topic. -/
def genParamsA : GenerateParams :=
  ⟨"sess-1", "turn-1", "An answer.",
    [⟨2, "Paper two", some "2222.0002"⟩, ⟨1, "Paper one", none⟩],
    some "Topic A", none, none⟩

/-- Second concrete parameter record for the C1 witness. -/
def genParamsB : GenerateParams :=
  ⟨"sess-1", "turn-1", "An answer.",
    [⟨1, "Paper 1 retitled", some "x"⟩, ⟨2, "Paper 2 retitled", none⟩],
    none, some "from a query", some "uid-9"⟩

/-- A trivial generator environment for the C1 witness. -/
def genEnvW : GenEnv :=
  ⟨CardPayload.empty, false, fun _ => false, fun s => s, 1700000000000, 1700000000001⟩

/-- C1 witness: the two parameter records share the card id, and the
second run over the store produced by the first is cached, call-free and
write-free. -/
theorem card_id_pure_and_idempotent_witness :
    cardIdOf genParamsA = cardIdOf genParamsB ∧
    (generateAndStoreCard genEnvW
      (generateAndStoreCard genEnvW ⟨[], []⟩ genParamsA).2.1 genParamsA).1.cached = true ∧
    (generateAndStoreCard genEnvW
      (generateAndStoreCard genEnvW ⟨[], []⟩ genParamsA).2.1 genParamsA).2.2 = 0 ∧
    (generateAndStoreCard genEnvW
      (generateAndStoreCard genEnvW ⟨[], []⟩ genParamsA).2.1 genParamsA).2.1 =
      (generateAndStoreCard genEnvW ⟨[], []⟩ genParamsA).2.1 := by
  have h := card_id_pure_and_idempotent genParamsA genParamsB genEnvW genEnvW
    ⟨[], []⟩ (by decide) (by decide) (by decide) (by decide)
  exact ⟨h.1, h.2.2.2.2.1, h.2.2.2.2.2.1, h.2.2.2.2.2.2⟩

/-! ### Enqueue-endpoint theorems -/

/-- Whether an enqueue attempt succeeded. -/
def exceptIsOk : Except String String → Bool
  | .ok _ => true
  | .error _ => false

/-- A valid concrete enqueue payload. -/
def enqPayloadW : EnqueuePayload :=
  ⟨"sess-1", "turn-1", "An answer.", some [⟨1, "Paper one", none⟩], none, none, none⟩

/-- A concrete async-mode environment whose enqueue attempt fails. -/
def enqEnvFail : EnqueueEnv :=
  ⟨true, false, .error "Cloud Tasks REST 500: upstream unavailable", false, genEnvW⟩

/-- C8 counterexample: in the revision at
`src/app/api/cards/enqueue/route.ts`, a concrete async-mode request whose
enqueue fails is answered with the 500 `enqueue-failed` error — the card
generator is not run inline (zero generator runs) and no sync result is
returned, contradicting the claimed fallback. -/
theorem enqueue_no_sync_fallback_counterexample :
    enqueueRoutePOST enqEnvFail ⟨[], []⟩ enqPayloadW =
      (⟨500, .err "enqueue-failed"⟩, ⟨[], []⟩, 0) := by
  decide

/-- C8 (amended): in the REST revision kept as `src/unnamed/part_005`,
whenever queueing is disabled (not Cloud Run, or forced sync) or the
enqueue attempt fails, a valid request falls back to running the card
generator inline and returns its result synchronously as
`{ ok: true, mode: "sync", id, cached, card }` (the async success body
carries the task instead, so the two bodies share only the `ok` field
besides the mode tag). -/
theorem enqueue_rest_sync_fallback (env : EnqueueEnv) (st : Store)
    (p : EnqueuePayload) (hs : p.sessionId ≠ "") (ht : p.turnId ≠ "")
    (hab : ¬(p.answer = "" || p.sources.isNone))
    (hgen : env.genThrows = false)
    (hfall : (env.isCloudRun && !env.forceSync) = false ∨
      exceptIsOk env.enqueueOutcome = false) :
    enqueueRestPOST env st p =
      (⟨200, .syncResult (generateAndStoreCard env.genEnv st p.toParams).1.id
          (generateAndStoreCard env.genEnv st p.toParams).1.cached
          (generateAndStoreCard env.genEnv st p.toParams).1.card⟩,
        (generateAndStoreCard env.genEnv st p.toParams).2.1, 1) := by
  unfold enqueueRestPOST
  rw [if_neg hs, if_neg ht, if_neg hab]
  rcases hfall with hoff | hfailed
  · rw [hoff]
    simp [hgen]
  · rcases houtcome : env.enqueueOutcome with e | t
    · cases hda : (env.isCloudRun && !env.forceSync) <;> simp [hgen]
    · rw [houtcome] at hfailed
      simp [exceptIsOk] at hfailed

/-- C8 witness: a concrete failing enqueue in async mode falls back to the
inline sync path in the REST revision. -/
theorem enqueue_rest_sync_fallback_witness :
    (enqueueRestPOST enqEnvFail ⟨[], []⟩ enqPayloadW).1.status = 200 ∧
    (enqueueRestPOST enqEnvFail ⟨[], []⟩ enqPayloadW).2.2 = 1 := by
  have h := enqueue_rest_sync_fallback enqEnvFail ⟨[], []⟩ enqPayloadW
    (by decide) (by decide) (by decide) rfl (Or.inr rfl)
  rw [h]
  exact ⟨rfl, rfl⟩

/-! ### Listing-endpoint theorems -/

/-- The in-memory comparator order and the indexed `(createdAt desc,
id desc)` order coincide. -/
theorem rFall2_iff_keyGE2 (a b : CardDoc) : rFall2 a b ↔ keyGE2 a b := by
  unfold rFall2 keyGE2
  by_cases he : ckey a = ckey b
  · rw [if_pos he]
    constructor
    · intro h
      exact Or.inr ⟨he, h⟩
    · intro h
      rcases h with h | ⟨_, h⟩
      · omega
      · exact h
  · rw [if_neg he]
    constructor
    · intro h
      exact Or.inl (by omega)
    · intro h
      rcases h with h | ⟨h, _⟩
      · omega
      · exact absurd h he

instance : IsTotal CardDoc keyGE2 := by
  constructor
  intro a b
  unfold keyGE2
  rcases lt_trichotomy (ckey a) (ckey b) with h | h | h
  · exact Or.inr (Or.inl h)
  · rcases le_total b.id a.id with hi | hi
    · exact Or.inl (Or.inr ⟨h, hi⟩)
    · exact Or.inr (Or.inr ⟨h.symm, hi⟩)
  · exact Or.inl (Or.inl h)

instance : IsTrans CardDoc keyGE2 := by
  constructor
  intro a b c hab hbc
  unfold keyGE2 at hab hbc ⊢
  rcases hab with h1 | ⟨h1, hi1⟩ <;> rcases hbc with h2 | ⟨h2, hi2⟩
  · exact Or.inl (by omega)
  · exact Or.inl (by omega)
  · exact Or.inl (by omega)
  · exact Or.inr ⟨by omega, le_trans hi2 hi1⟩

instance : IsTotal CardDoc rFall2 := by
  constructor
  intro a b
  rcases total_of keyGE2 a b with h | h
  · exact Or.inl ((rFall2_iff_keyGE2 a b).mpr h)
  · exact Or.inr ((rFall2_iff_keyGE2 b a).mpr h)

instance : IsTrans CardDoc rFall2 := by
  constructor
  intro a b c hab hbc
  exact (rFall2_iff_keyGE2 a c).mpr
    (Trans.trans ((rFall2_iff_keyGE2 a b).mp hab) ((rFall2_iff_keyGE2 b c).mp hbc))

/-- Mutually related documents share their id. -/
theorem keyGE2_antisymm_on (a b : CardDoc) (h1 : keyGE2 a b) (h2 : keyGE2 b a) :
    a.id = b.id := by
  unfold keyGE2 at h1 h2
  rcases h1 with h1 | ⟨he1, hi1⟩ <;> rcases h2 with h2 | ⟨he2, hi2⟩
  · omega
  · omega
  · omega
  · exact le_antisymm hi2 hi1

/-- Two sorted permutations of a document list with distinct ids are
equal: the indexed order determines the list uniquely. -/
theorem sorted_perm_nodupIds_eq :
    ∀ l1 l2 : List CardDoc, l1.Perm l2 → l1.Sorted keyGE2 → l2.Sorted keyGE2 →
      (l1.map CardDoc.id).Nodup → l1 = l2 := by
  intro l1
  induction l1 with
  | nil =>
      intro l2 hp _ _ _
      exact hp.nil_eq
  | cons a t1 ih =>
      intro l2 hp hs1 hs2 hnd
      cases l2 with
      | nil =>
          have := hp.symm.nil_eq
          simp at this
      | cons b t2 =>
          have hs1c := List.sorted_cons.mp hs1
          have hs2c := List.sorted_cons.mp hs2
          have hndc : a.id ∉ t1.map CardDoc.id ∧ (t1.map CardDoc.id).Nodup := by
            rw [List.map_cons] at hnd
            exact List.nodup_cons.mp hnd
          have hab : a = b := by
            have hbmem : b ∈ a :: t1 := hp.mem_iff.mpr (by simp)
            rcases List.mem_cons.mp hbmem with hba | hbt1
            · exact hba.symm
            · have hamem : a ∈ b :: t2 := hp.mem_iff.mp (by simp)
              rcases List.mem_cons.mp hamem with hab2 | hat2
              · exact hab2
              · exfalso
                have h1 : keyGE2 a b := hs1c.1 b hbt1
                have h2 : keyGE2 b a := hs2c.1 a hat2
                have hid : a.id = b.id := keyGE2_antisymm_on a b h1 h2
                have : b.id ∈ t1.map CardDoc.id := List.mem_map_of_mem _ hbt1
                rw [← hid] at this
                exact hndc.1 this
          subst hab
          have ht : t1 = t2 := ih t2 hp.cons_inv hs1c.2 hs2c.2 hndc.2
          rw [ht]

/-- The two cursor predicates coincide. -/
theorem cursorPred_eq (c : Int × String) (d : CardDoc) :
    fallbackCursorKeep c d = strictAfter2 c d := by
  unfold fallbackCursorKeep strictAfter2
  by_cases h1 : ckey d < c.1
  · simp [h1]
  · by_cases h2 : c.1 < ckey d
    · have h3 : ¬(ckey d = c.1) := by omega
      simp [h1, h2, h3]
    · have h3 : ckey d = c.1 := by omega
      simp [h1, h2, h3]

/-- The in-memory fallback of the later listing revision returns exactly
what the indexed query returns on the same documents and parameters,
provided document ids are distinct (as they are for a Firestore
collection). -/
theorem fallback_eq_indexed2 (docs : List CardDoc) (ps : ListParams2)
    (hnodup : (docs.map CardDoc.id).Nodup) :
    fallbackQuery2 docs ps = indexedQuery2 docs ps := by
  have hmem : ((docs.filter (fun d => wheres2 ps d)).filter
        (fun d => d.createdAt.isSome)).filter (fun d => sinceOk ps d) =
      docs.filter (fun d => wheres2 ps d && d.createdAt.isSome && sinceOk ps d) := by
    rw [List.filter_filter, List.filter_filter]
    have hfun : (fun a => sinceOk ps a && a.createdAt.isSome && wheres2 ps a) =
        (fun d => wheres2 ps d && d.createdAt.isSome && sinceOk ps d) := by
      funext d
      cases hw : wheres2 ps d <;> cases hi : d.createdAt.isSome <;>
        cases hso : sinceOk ps d <;> rfl
    rw [hfun]
  have hnodbase : ((docs.filter (fun d =>
      wheres2 ps d && d.createdAt.isSome && sinceOk ps d)).map CardDoc.id).Nodup :=
    hnodup.sublist ((List.filter_sublist docs).map CardDoc.id)
  have hperm : (List.insertionSort rFall2 (docs.filter (fun d =>
        wheres2 ps d && d.createdAt.isSome && sinceOk ps d))).Perm
      (List.insertionSort keyGE2 (docs.filter (fun d =>
        wheres2 ps d && d.createdAt.isSome && sinceOk ps d))) :=
    (List.perm_insertionSort _ _).trans (List.perm_insertionSort _ _).symm
  have hsort1 : (List.insertionSort rFall2 (docs.filter (fun d =>
      wheres2 ps d && d.createdAt.isSome && sinceOk ps d))).Sorted keyGE2 :=
    (List.sorted_insertionSort rFall2 _).imp (fun h => (rFall2_iff_keyGE2 _ _).mp h)
  have hsort2 : (List.insertionSort keyGE2 (docs.filter (fun d =>
      wheres2 ps d && d.createdAt.isSome && sinceOk ps d))).Sorted keyGE2 :=
    List.sorted_insertionSort keyGE2 _
  have hnodsorted : ((List.insertionSort rFall2 (docs.filter (fun d =>
      wheres2 ps d && d.createdAt.isSome && sinceOk ps d))).map CardDoc.id).Nodup :=
    (((List.perm_insertionSort rFall2 _)).map CardDoc.id).nodup_iff.mpr hnodbase
  have hsorteq := sorted_perm_nodupIds_eq _ _ hperm hsort1 hsort2 hnodsorted
  unfold fallbackQuery2 indexedQuery2
  simp only [hmem, hsorteq]
  cases hcur : ps.cursor with
  | none => rfl
  | some c =>
      have hp : (fun d => fallbackCursorKeep c d) = (fun d => strictAfter2 c d) :=
        funext (cursorPred_eq c)
      simp only [hp]

/-- keyGE2 implies descending creation times. -/
theorem keyGE2_createdAt (a b : CardDoc) (h : keyGE2 a b) : ckey b ≤ ckey a := by
  unfold keyGE2 at h
  rcases h with h | ⟨h, _⟩ <;> omega

/-- The fallback page is sorted descending by creation time. -/
theorem fallbackQuery2_sorted (docs : List CardDoc) (ps : ListParams2) :
    (fallbackQuery2 docs ps).Sorted (fun a b => ckey b ≤ ckey a) := by
  have hsorted : (List.insertionSort rFall2 (((docs.filter
      (fun d => wheres2 ps d)).filter (fun d => d.createdAt.isSome)).filter
      (fun d => sinceOk ps d))).Sorted (fun a b => ckey b ≤ ckey a) :=
    (List.sorted_insertionSort rFall2 _).imp
      (fun h => keyGE2_createdAt _ _ ((rFall2_iff_keyGE2 _ _).mp h))
  unfold fallbackQuery2
  cases hcur : ps.cursor with
  | none => exact hsorted.sublist (List.take_sublist _ _)
  | some c =>
      exact (hsorted.sublist (List.filter_sublist _)).sublist (List.take_sublist _ _)

/-- C7: when the store reports the missing-index condition, the later
listing revision responds through the in-memory path with
`warning = "missing_index"`, its cards are sorted descending by creation
time, and its page (cards and next cursor) is identical in content to what
the indexed path would return on the same documents and parameters. -/
theorem cards_listing_missing_index (env : ListEnv) (ps : ListParams2)
    (hs : ps.sessionId ≠ "") (code : Option Int) (msg : String)
    (herr : env.indexedOutcome = some (code, msg))
    (hni : needsIndex code msg = true)
    (hnodup : (env.docs.map CardDoc.id).Nodup) :
    cardsGET2 env ps =
      ⟨200, fallbackQuery2 env.docs ps,
        nextCursor2 (fallbackQuery2 env.docs ps) (limitNat2 ps),
        some "missing_index", none⟩ ∧
    fallbackQuery2 env.docs ps = indexedQuery2 env.docs ps ∧
    (fallbackQuery2 env.docs ps).Sorted (fun a b => ckey b ≤ ckey a) := by
  refine ⟨?_, fallback_eq_indexed2 env.docs ps hnodup, fallbackQuery2_sorted env.docs ps⟩
  simp [cardsGET2, hs, herr, hni]

/-- Concrete documents for the C7 witness. -/
def docsW7 : List CardDoc :=
  [⟨"c1", "s", "t", none, some 5⟩, ⟨"c2", "s", "t", none, some 9⟩,
   ⟨"c3", "s", "t", none, some 9⟩, ⟨"c4", "other", "t", none, some 7⟩]

/-- Concrete store world for the C7 witness: the indexed query throws the
missing-index condition. -/
def envW7 : ListEnv :=
  ⟨docsW7, some (some 9, "FAILED_PRECONDITION: The query requires an index.")⟩

/-- Concrete parameters for the C7 witness. -/
def psW7 : ListParams2 :=
  ⟨"s", none, none, none, some "2", none⟩

/-- C7 witness: on the concrete store the endpoint answers through the
fallback with the missing-index warning, and the fallback page equals the
indexed page. -/
theorem cards_listing_missing_index_witness :
    (cardsGET2 envW7 psW7).warning = some "missing_index" ∧
    fallbackQuery2 envW7.docs psW7 = indexedQuery2 envW7.docs psW7 := by
  have h := cards_listing_missing_index envW7 psW7 (by decide)
    (some 9) "FAILED_PRECONDITION: The query requires an index." rfl
    (by decide) (by decide)
  exact ⟨by rw [h.1], h.2.1⟩

/-- The 206 concrete documents of the C10 counterexample (descending
creation times, distinct ids, one session). -/
def bigDocs : List CardDoc :=
  (List.range 206).map (fun i => ⟨"c" ++ toString i, "s", "t", none, some (2000000 - (i : Int))⟩)

/-- Store world of the C10 counterexample: the composite index is
missing. -/
def bigEnv : ListEnv :=
  ⟨bigDocs, some (some 9, "FAILED_PRECONDITION: query requires an index")⟩

/-- Request of the C10 counterexample: `limit=-5`. -/
def negPs : ListParams1 :=
  ⟨"s", none, some "-5", none⟩

set_option maxRecDepth 8000 in
/-- C10 counterexample: in the earlier listing revision the limit is
clamped only from above, so with `limit=-5` (clamped limit `-5`) and 206
matching documents the in-memory fallback answers
`all.slice(0, -5)` — 201 cards, exceeding both the clamped limit and
200. -/
theorem cards_limit_cap_counterexample :
    limit1 negPs = some (-5) ∧
    (cardsGET1 bigEnv negPs).warning = some "missing_index" ∧
    ((cardsGET1 bigEnv negPs).cards).length = 201 := by
  refine ⟨by decide, by decide, by decide⟩

/-- Page length of the later-revision indexed query. -/
theorem indexedQuery2_len (docs : List CardDoc) (ps : ListParams2) :
    (indexedQuery2 docs ps).length ≤ limitNat2 ps := by
  unfold indexedQuery2
  exact List.length_take_le _ _

/-- Page length of the later-revision fallback. -/
theorem fallbackQuery2_len (docs : List CardDoc) (ps : ListParams2) :
    (fallbackQuery2 docs ps).length ≤ limitNat2 ps := by
  unfold fallbackQuery2
  exact List.length_take_le _ _

/-- Page length of the earlier-revision indexed query. -/
theorem indexedQuery1_len (docs : List CardDoc) (ps : ListParams1) (k : Int)
    (h : limit1 ps = some k) : (indexedQuery1 docs ps).length ≤ k.toNat := by
  unfold indexedQuery1
  simp only [h]
  exact List.length_take_le _ _

/-- A nonnegative-end slice keeps at most that many elements. -/
theorem jsArraySlice0_len_nonneg {α : Type} (xs : List α) (k : Int) (hk : 0 ≤ k) :
    (jsArraySlice0 xs (some k)).length ≤ k.toNat := by
  unfold jsArraySlice0
  dsimp only
  rw [if_neg (by omega)]
  have := List.length_take_le (min k.toNat xs.length) xs
  omega

/-- Page length of the earlier-revision fallback, for a nonnegative
limit. -/
theorem fallbackQuery1_len (docs : List CardDoc) (ps : ListParams1) (k : Int)
    (h : limit1 ps = some k) (hk : 0 ≤ k) :
    (fallbackQuery1 docs ps).length ≤ k.toNat := by
  unfold fallbackQuery1
  simp only [h]
  exact jsArraySlice0_len_nonneg _ k hk

/-- C10 (amended): the requested limit is clamped to at most 200 in both
revisions (defaulting to 60 when absent), and the response carries at most
the clamped number of cards — unconditionally in the later revision
(whose lower clamp forces the limit into `1..200`), and in the earlier
revision whenever the requested limit is nonnegative; a negative limit in
the earlier revision escapes the clamp and its fallback can exceed 200. -/
theorem cards_limit_cap_amended (env : ListEnv) (ps1 : ListParams1)
    (ps2 : ListParams2) (k1 : Int) (h1 : limit1 ps1 = some k1) (hk1 : 0 ≤ k1)
    (k2 : Int) (h2 : limit2 ps2 = some k2) :
    k1 ≤ 200 ∧ 1 ≤ k2 ∧ k2 ≤ 200 ∧
    ((cardsGET1 env ps1).cards).length ≤ 200 ∧
    ((cardsGET2 env ps2).cards).length ≤ 200 := by
  have hk1le : k1 ≤ 200 := by
    unfold limit1 jsMinNaN at h1
    rcases hp : parseIntJS (jsOrStr ps1.limitRaw (some "60")) with _ | m
    · rw [hp] at h1
      simp at h1
    · rw [hp] at h1
      simp at h1
      omega
  have hk2 : 1 ≤ k2 ∧ k2 ≤ 200 := by
    unfold limit2 jsMaxNaN jsMinNaN at h2
    rcases hp : parseIntJS (jsOrStr ps2.limitRaw (some "60")) with _ | m
    · rw [hp] at h2
      simp at h2
    · rw [hp] at h2
      simp at h2
      omega
  have hlim2 : limitNat2 ps2 ≤ 200 := by
    unfold limitNat2
    rw [h2]
    dsimp only
    omega
  refine ⟨hk1le, hk2.1, hk2.2, ?_, ?_⟩
  · by_cases hss : ps1.sessionId = ""
    · simp [cardsGET1, hss]
    · rcases hout : env.indexedOutcome with _ | cm
      · have := indexedQuery1_len env.docs ps1 k1 h1
        simp only [cardsGET1, hss, hout, if_neg hss]
        simp
        omega
      · rcases cm with ⟨code, msg⟩
        by_cases hni : needsIndex code msg
        · have := fallbackQuery1_len env.docs ps1 k1 h1 hk1
          simp only [cardsGET1, hss, hout, if_neg hss]
          simp [hni]
          omega
        · simp only [cardsGET1, hss, hout, if_neg hss]
          simp [hni]
  · by_cases hss : ps2.sessionId = ""
    · simp [cardsGET2, hss]
    · rcases hout : env.indexedOutcome with _ | cm
      · have := indexedQuery2_len env.docs ps2
        simp only [cardsGET2, hss, hout, if_neg hss]
        simp
        omega
      · rcases cm with ⟨code, msg⟩
        by_cases hni : needsIndex code msg
        · have := fallbackQuery2_len env.docs ps2
          simp only [cardsGET2, hss, hout, if_neg hss]
          simp [hni]
          omega
        · simp only [cardsGET2, hss, hout, if_neg hss]
          simp [hni]

/-- C10 witness: with the default limit the earlier revision answers at
most 200 cards on a concrete store, and the later revision does too. -/
theorem cards_limit_cap_amended_witness :
    ((cardsGET1 envW7 ⟨"s", none, none, none⟩).cards).length ≤ 200 ∧
    ((cardsGET2 envW7 psW7).cards).length ≤ 200 := by
  have h := cards_limit_cap_amended envW7 ⟨"s", none, none, none⟩ psW7
    60 (by decide) (by decide) 2 (by decide)
  exact ⟨h.2.2.2.1, h.2.2.2.2⟩
